import Mathlib

/-
  Verification development for the EQ-Overlay log ingestion and
  spell/timer correlation engine.

  Shallow embedding notes:
  - Text is modelled as `Str := List Char`; log messages are lists of
    characters and the regular-expression matchers of the source are
    implemented as executable character-list functions.
  - Timestamps (both log timestamps and wall-clock instants) are modelled
    as `Int` seconds.  The source uses `datetime`; every comparison the
    claims are about (`elapsed < window`, `elapsed > timeout`, end-time
    ordering) is preserved by this abstraction.
  - Python `math.ceil(level / 2.0)` and `math.ceil(level / 5.0 * 3)` are
    exact for the integer inputs in range (the quotients are at least 1/5
    away from the nearest smaller integer, far beyond double rounding
    error), so they are embedded as the exact natural-number ceilings
    `(level + 1) / 2` and `(3 * level + 4) / 5`.
-/

namespace EQOverlay

abbrev Str := List Char

/-! ## Duration formulas (src/Archive/eq_overlay/core/duration.py) -/

def SECONDS_PER_TICK : Nat := 6

def PERMANENT_TICKS : Nat := 72000

/-- Embedding of `DurationFormula._get_ticks`.  Python's `match formula:`
over integer literals is a sequential equality dispatch, embedded as an
if-chain in the same case order. -/
def get_ticks (formula base level : Nat) : Nat :=
  if formula = 0 then 0
  else if formula = 1 then
    let ticks := (level + 1) / 2
    if 0 < base then min ticks base else ticks
  else if formula = 2 then
    let ticks := (3 * level + 4) / 5
    if 0 < base then min ticks base else ticks
  else if formula = 3 then
    let ticks := level * 30
    if 0 < base then min ticks base else ticks
  else if formula = 4 then
    if 0 < base then base else 50
  else if formula = 5 then
    if 0 < base then base else 3
  else if formula = 6 then
    let ticks := (level + 1) / 2
    if 0 < base then min ticks base else ticks
  else if formula = 7 then
    let ticks := level
    if 0 < base then min ticks base else ticks
  else if formula = 8 then
    let ticks := level + 10
    if 0 < base then min ticks base else ticks
  else if formula = 9 then
    let ticks := level * 2 + 10
    if 60 < base then base
    else if 0 < base then min ticks base else ticks
  else if formula = 10 then
    let ticks := level * 3 + 10
    if 60 < base then base
    else if 0 < base then min ticks base else ticks
  else if formula = 11 then base
  else if formula = 12 then base
  else if formula = 15 then base
  else if formula = 50 then PERMANENT_TICKS
  else if formula = 3600 then
    if 0 < base then base else 3600
  else base

/-- Embedding of `DurationFormula.calculate`: duration in seconds. -/
def calculate (formula base level : Nat) : Nat :=
  get_ticks formula base level * SECONDS_PER_TICK

/-- Transcribed from the documented tick table of the specification
(spec section 4.1), for comparison against the source embedding
`get_ticks`. -/
def spec_tick_table (formula base level : Nat) : Nat :=
  if formula = 0 then 0
  else if formula = 1 ∨ formula = 6 then
    let ceilHalf := (level + 1) / 2
    if 0 < base then min ceilHalf base else ceilHalf
  else if formula = 2 then
    let ceilFifth3 := (3 * level + 4) / 5
    if 0 < base then min ceilFifth3 base else ceilFifth3
  else if formula = 3 then
    if 0 < base then min (level * 30) base else level * 30
  else if formula = 4 then
    if 0 < base then base else 50
  else if formula = 5 then
    if 0 < base then base else 3
  else if formula = 7 then
    if 0 < base then min level base else level
  else if formula = 8 then
    if 0 < base then min (level + 10) base else level + 10
  else if formula = 9 then
    if 60 < base then base
    else if 0 < base then min (level * 2 + 10) base else level * 2 + 10
  else if formula = 10 then
    if 60 < base then base
    else if 0 < base then min (level * 3 + 10) base else level * 3 + 10
  else if formula = 11 ∨ formula = 12 ∨ formula = 15 then base
  else if formula = 50 then 72000
  else if formula = 3600 then
    if 0 < base then base else 3600
  else base

/-! ## Spell records (src/eq_overlay/core/data.py) -/

structure SpellInfo where
  id : Int
  name : Str
  cast_on_you : Str
  cast_on_other : Str
  spell_fades : Str
  duration_formula : Nat
  duration_base : Nat
  cast_time_ms : Int := 0
  target_type : Int := 0
  beneficial : Bool := true
  replaced_by : Int := 0
  replacement_expansion : Str := []
deriving DecidableEq

/-- Embedding of `SpellInfo.get_duration_seconds`. -/
def SpellInfo.get_duration_seconds (s : SpellInfo) (level : Nat) : Nat :=
  calculate s.duration_formula s.duration_base level

/-- Embedding of `SpellInfo.has_duration`:
`not (duration_formula == 0 and duration_base == 0)`. -/
def SpellInfo.has_duration (s : SpellInfo) : Bool :=
  !(s.duration_formula == 0 && s.duration_base == 0)

/-- Embedding of `SpellInfo.is_beneficial`. -/
def SpellInfo.is_beneficial (s : SpellInfo) : Bool :=
  s.beneficial

/-! ## best_match (src/eq_overlay/timers/spell_database.py) -/

/-- Embedding of `SpellDatabase.best_match`. -/
def best_match (spells : List SpellInfo) (prefer_name : Option Str) :
    Option SpellInfo :=
  if spells.isEmpty then none
  else
    let viaName : Option SpellInfo :=
      match prefer_name with
      | some p => spells.find? (fun s => decide (s.name = p))
      | none => none
    match viaName with
    | some s => some s
    | none =>
      match (spells.filter (fun s => s.has_duration)).head? with
      | some s => some s
      | none => spells.head?

/-! ## Timer registry (src/eq_overlay/timers/timer_manager.py) -/

inductive TimerCategory where
  | self_buff
  | received_buff
  | debuff
  | other_buff
deriving DecidableEq

structure ActiveTimer where
  spell_name : Str
  target : Str
  end_time : Int
  total_duration : Nat
  category : TimerCategory
  spell_info : Option SpellInfo := none
deriving DecidableEq

/-- The registry dictionary `(spell_name, target) -> timer`, modelled as
an insertion-ordered association list (Python dicts preserve insertion
order; assignment to an existing key replaces in place). -/
structure TimerManager where
  timers : List ((Str × Str) × ActiveTimer)
deriving DecidableEq

def TimerManager.lookup (m : TimerManager) (key : Str × Str) :
    Option ActiveTimer :=
  (m.timers.find? (fun kv => decide (kv.fst = key))).map (fun kv => kv.snd)

/-- Embedding of `TimerManager.add`: refresh only on a strictly later end
time; insert when the key is absent. -/
def TimerManager.add (m : TimerManager) (timer : ActiveTimer) :
    TimerManager :=
  let key := (timer.spell_name, timer.target)
  match m.lookup key with
  | some existing =>
    if existing.end_time < timer.end_time then
      ⟨m.timers.map (fun kv => if kv.fst = key then (key, timer) else kv)⟩
    else m
  | none => ⟨m.timers ++ [(key, timer)]⟩

/-- Embedding of `TimerManager.remove`. -/
def TimerManager.remove (m : TimerManager) (spell_name target : Str) :
    TimerManager :=
  ⟨m.timers.filter (fun kv => !(decide (kv.fst = (spell_name, target))))⟩

/-- Embedding of `TimerManager.clear`. -/
def TimerManager.clear (_ : TimerManager) : TimerManager := ⟨[]⟩

/-! ## String utilities shared by the parser embeddings -/

/-- The apostrophe character used by the chat message templates. -/
def quoteChar : Char := Char.ofNat 39

/-- Python `\w` character class (ASCII scope, as used by the log lines). -/
def isWordChar (c : Char) : Bool := c.isAlphanum || c == '_'

/-- Strip a literal prefix, or fail. -/
def afterLit (lit s : Str) : Option Str :=
  if lit.isPrefixOf s then some (s.drop lit.length) else none

/-- Match `(.+)'$` against the remainder of a line: a nonempty content
followed by a final apostrophe. -/
def quotedTail (rest : Str) : Option Str :=
  if 2 ≤ rest.length && rest.getLast? == some quoteChar then
    some rest.dropLast
  else none

/-- Match `lit(.+)'$`: a literal (ending in the opening apostrophe)
followed by nonempty quoted content running to the end of the line. -/
def litQuoted (lit s : Str) : Option Str :=
  (afterLit lit s).bind quotedTail

/-- Match `^(\w+)` and return the (maximal, hence regex-greedy) word and
the remainder; fail when the word is empty. -/
def wordSplit (s : Str) : Option (Str × Str) :=
  let w := s.takeWhile isWordChar
  if w.isEmpty then none else some (w, s.drop w.length)

/-- Match `^(\w+)lit(.+)'$` (the shape of the incoming chat patterns). -/
def nameQuoted (mid s : Str) : Option (Str × Str) :=
  (wordSplit s).bind fun nr =>
    (litQuoted mid nr.snd).map fun c => (nr.fst, c)

/-- Match `^(\d+)` and return digits and remainder. -/
def digitSplit (s : Str) : Option (Str × Str) :=
  let d := s.takeWhile Char.isDigit
  if d.isEmpty then none else some (d, s.drop d.length)

/-- Lazy-group scan for `^(.+?)<tail>` patterns: try the shortest nonempty
group first and grow it, exactly as a regex lazy quantifier does. -/
def lazyGo (ok : Str → Option α) : Str → Str → Option (Str × α)
  | accRev, rest =>
    match ok rest with
    | some r => some (accRev.reverse, r)
    | none =>
      match rest with
      | [] => none
      | c :: cs => lazyGo ok (c :: accRev) cs

/-- Split `s` as `group ++ tail` with nonempty `group` minimal such that
`ok tail` succeeds (regex `^(.+?)` followed by `ok`). -/
def lazySplit (ok : Str → Option α) (s : Str) : Option (Str × α) :=
  match s with
  | [] => none
  | c :: cs => lazyGo ok [c] cs

/-- Greedy-group scan for `(.+)<tail>$` patterns: prefer the longest
nonempty group whose tail matches (regex greedy backtracking). -/
def greedyGo (ok : Str → Option α) : Str → Option (Str × α)
  | [] => none
  | c :: cs =>
    match greedyGo ok cs with
    | some pr => some (c :: pr.fst, pr.snd)
    | none => (ok (c :: cs)).map fun r => ([], r)

/-- Split `s` as `group ++ tail` with nonempty `group` maximal such that
`ok tail` succeeds. -/
def greedySplit (ok : Str → Option α) (s : Str) : Option (Str × α) :=
  match greedyGo ok s with
  | some pr => if pr.fst.isEmpty then none else some pr
  | none => none

/-- Match `lit(.+)term$`: content between a literal start and a literal
terminator at end of line (greedy group is forced by the fixed tail). -/
def betweenLits (lit term s : Str) : Option Str :=
  (afterLit lit s).bind fun rest =>
    if term.isSuffixOf rest && term.length + 1 ≤ rest.length then
      some (rest.take (rest.length - term.length))
    else none

/-- Substring containment (Python `in`). -/
def strContains (pat : Str) : Str → Bool
  | [] => pat.isPrefixOf ([] : Str)
  | c :: cs => pat.isPrefixOf (c :: cs) || strContains pat cs

/-- Python `str.lower` (ASCII scope). -/
def lowerStr (s : Str) : Str := s.map Char.toLower

/-- Non-overlapping left-to-right replacement (Python `str.replace`),
with an explicit fuel so the definition is structural and evaluates by
`rfl`/`decide`; the fuel `s.length` is always sufficient. -/
def replaceAllGo (pat rep : Str) : Nat → Str → Str
  | 0, s => s
  | _ + 1, [] => []
  | fuel + 1, c :: cs =>
    if pat.isPrefixOf (c :: cs) then
      rep ++ replaceAllGo pat rep fuel ((c :: cs).drop pat.length)
    else c :: replaceAllGo pat rep fuel cs

def replaceAll (pat rep s : Str) : Str := replaceAllGo pat rep s.length s

/-! ## Chat data (src/eq_overlay/core/data.py) and
`decode_eq_text` (src/Archive/eq_overlay/core/eq_utils.py) -/

inductive ChannelType where
  | guild
  | ooc
  | group
  | shout
  | auction
  | tell
  | say
  | random
  | who
deriving DecidableEq

structure ChatMessage where
  timestamp : Int
  channel : ChannelType
  sender : Str
  content : Str
  is_outgoing : Bool := false
  tell_target : Option Str := none
deriving DecidableEq

structure LogEntry where
  timestamp : Int
  message : Str
deriving DecidableEq

/-- Embedding of `decode_eq_text`: `&PCT;` then `&AMP;` replacement. -/
def decode_eq_text (s : Str) : Str :=
  replaceAll "&AMP;".toList "&".toList
    (replaceAll "&PCT;".toList "%".toList s)

/-! ## Chat regular expressions (src/eq_overlay/core/log_parser.py)

Each matcher implements the corresponding compiled pattern of the source,
including greedy/lazy group semantics and the optional-comma variants.
`ql s` builds a template literal that ends in the opening apostrophe. -/

def ql (s : String) : Str := s.toList ++ [quoteChar]

def GUILD_OUT (s : Str) : Option Str :=
  litQuoted (ql "You say to your guild, ") s

def GUILD_IN (s : Str) : Option (Str × Str) :=
  nameQuoted (ql " tells the guild, ") s

def OOC_OUT (s : Str) : Option Str :=
  litQuoted (ql "You say out of character, ") s

def OOC_IN (s : Str) : Option (Str × Str) :=
  nameQuoted (ql " says out of character, ") s

def GROUP_OUT (s : Str) : Option Str :=
  litQuoted (ql "You tell your party, ") s

def GROUP_IN (s : Str) : Option (Str × Str) :=
  nameQuoted (ql " tells the group, ") s

/-- Pattern `^You shout,? '(.+)'$` (greedy `,?` tries the comma variant first;
the two variants are mutually exclusive). -/
def SHOUT_OUT (s : Str) : Option Str :=
  (litQuoted (ql "You shout, ") s).orElse fun _ =>
    litQuoted (ql "You shout ") s

/-- The `verb,? '(.+)'$` tail shared by the lazy incoming patterns. -/
def chanTail (verb : String) (rest : Str) : Option Str :=
  (litQuoted (ql (verb ++ ", ")) rest).orElse fun _ =>
    litQuoted (ql (verb ++ " ")) rest

/-- Pattern `^(.+?) shouts,? '(.+)'$`. -/
def SHOUT_IN (s : Str) : Option (Str × Str) :=
  lazySplit (chanTail " shouts") s

def AUCTION_OUT (s : Str) : Option Str :=
  (litQuoted (ql "You auction, ") s).orElse fun _ =>
    litQuoted (ql "You auction ") s

/-- Pattern `^(.+?) auctions,? '(.+)'$`. -/
def AUCTION_IN (s : Str) : Option (Str × Str) :=
  lazySplit (chanTail " auctions") s

def TELL_IN (s : Str) : Option (Str × Str) :=
  nameQuoted (ql " tells you, ") s

/-- Pattern `^You told (\w+),? '(?:\[queued\], )?(.+)'$`. -/
def TELL_OUT (s : Str) : Option (Str × Str) :=
  (afterLit "You told ".toList s).bind fun r =>
    (wordSplit r).bind fun nr =>
      let q : Option Str :=
        (afterLit (ql ", ") nr.snd).orElse fun _ => afterLit (ql " ") nr.snd
      q.bind fun rest =>
        let withQueued : Option Str :=
          (afterLit "[queued], ".toList rest).bind quotedTail
        match withQueued with
        | some c => some (nr.fst, c)
        | none => (quotedTail rest).map fun c => (nr.fst, c)

/-- Pattern `^(\w+) -> (\w+): (.+)$`. -/
def TELL_ARROW (s : Str) : Option (Str × Str × Str) :=
  (wordSplit s).bind fun n1 =>
    (afterLit " -> ".toList n1.snd).bind fun r2 =>
      (wordSplit r2).bind fun n2 =>
        (afterLit ": ".toList n2.snd).bind fun c =>
          if c.isEmpty then none else some (n1.fst, n2.fst, c)

def SAY_OUT (s : Str) : Option Str :=
  litQuoted (ql "You say, ") s

def SAY_IN (s : Str) : Option (Str × Str) :=
  nameQuoted (ql " says, ") s

/-- Pattern `^\*\*A Magic Die is rolled by (\w+)\.$`. -/
def RANDOM_ROLLER (s : Str) : Option Str :=
  (afterLit "**A Magic Die is rolled by ".toList s).bind fun r =>
    (wordSplit r).bind fun nr =>
      if nr.snd = ['.'] then some nr.fst else none

/-- Pattern `^\*\*It could have been any number from (\d+) to (\d+), but this
time it turned up a (\d+)\.$`. -/
def RANDOM_RESULT (s : Str) : Option (Str × Str × Str) :=
  (afterLit "**It could have been any number from ".toList s).bind fun r1 =>
    (digitSplit r1).bind fun low =>
      (afterLit " to ".toList low.snd).bind fun r2 =>
        (digitSplit r2).bind fun high =>
          (afterLit ", but this time it turned up a ".toList high.snd).bind
            fun r3 =>
              (digitSplit r3).bind fun res =>
                if res.snd = ['.'] then some (low.fst, high.fst, res.fst)
                else none

/-! ## Pet spam filter and fixed message sets -/

def PET_MESSAGES : List Str :=
  [ "following you, master.".toList,
    "guarding with my life..oh splendid one.".toList,
    "no longer taunting attackers, master.".toList,
    "as you wish, oh great one.".toList,
    "sorry to have failed you, oh great one.".toList,
    "ahhh, i feel much better now...".toList ]

def BLACKLISTED_MESSAGES : List Str :=
  [ "You feel quite amicable.".toList ]

def CAST_FAILURE_MESSAGES : List Str :=
  [ "Your spell fizzles".toList,
    "Your target resisted".toList,
    "Your must first select a target".toList,
    "Your spell is interrupted".toList,
    "You cannot see your target".toList,
    "Your target is out of range".toList ]

/-- Embedding of `LogParser._is_pet_spam`. -/
def is_pet_spam (content : Str) : Bool :=
  let cl := lowerStr content
  PET_MESSAGES.contains cl ||
    ("attacking ".toList.isPrefixOf cl && " master.".toList.isSuffixOf cl)

/-! ## Stateful chat parsing (`LogParser.parse_chat_message`) -/

structure ChatState where
  pending_roller : Option Str := none
  last_was_die_roll : Bool := false
deriving DecidableEq

def youStr : Str := "You".toList

/-- Embedding of `LogParser.parse_chat_message`: the full branch chain in
source order.  Branches that `return` before the final flag reset leave
the die-roll state untouched, exactly as in the source. -/
def parse_chat_message (character_name : Str) (st : ChatState)
    (entry : LogEntry) : ChatState × Option ChatMessage :=
  let text := entry.message
  if let some c := GUILD_OUT text then
    (st, some { timestamp := entry.timestamp, channel := .guild,
                sender := youStr, content := decode_eq_text c,
                is_outgoing := true })
  else if let some nc := GUILD_IN text then
    (st, some { timestamp := entry.timestamp, channel := .guild,
                sender := nc.fst, content := decode_eq_text nc.snd })
  else if let some c := OOC_OUT text then
    (st, some { timestamp := entry.timestamp, channel := .ooc,
                sender := youStr, content := decode_eq_text c,
                is_outgoing := true })
  else if let some nc := OOC_IN text then
    (st, some { timestamp := entry.timestamp, channel := .ooc,
                sender := nc.fst, content := decode_eq_text nc.snd })
  else if let some c := GROUP_OUT text then
    (st, some { timestamp := entry.timestamp, channel := .group,
                sender := youStr, content := decode_eq_text c,
                is_outgoing := true })
  else if let some nc := GROUP_IN text then
    (st, some { timestamp := entry.timestamp, channel := .group,
                sender := nc.fst, content := decode_eq_text nc.snd })
  else if let some c := SHOUT_OUT text then
    (st, some { timestamp := entry.timestamp, channel := .shout,
                sender := youStr, content := decode_eq_text c,
                is_outgoing := true })
  else if let some nc := SHOUT_IN text then
    (st, some { timestamp := entry.timestamp, channel := .shout,
                sender := nc.fst, content := decode_eq_text nc.snd })
  else if let some c := AUCTION_OUT text then
    (st, some { timestamp := entry.timestamp, channel := .auction,
                sender := youStr, content := decode_eq_text c,
                is_outgoing := true })
  else if let some nc := AUCTION_IN text then
    (st, some { timestamp := entry.timestamp, channel := .auction,
                sender := nc.fst, content := decode_eq_text nc.snd })
  else if let some nc := TELL_IN text then
    let sender := nc.fst
    let content := decode_eq_text nc.snd
    if is_pet_spam content then (st, none)
    else
      (st, some { timestamp := entry.timestamp, channel := .tell,
                  sender := sender, content := content,
                  is_outgoing := false, tell_target := some sender })
  else if let some nc := TELL_OUT text then
    (st, some { timestamp := entry.timestamp, channel := .tell,
                sender := youStr, content := decode_eq_text nc.snd,
                is_outgoing := true, tell_target := some nc.fst })
  else if let some t := TELL_ARROW text then
    let sender := t.fst
    let recipient := t.snd.fst
    let is_out := decide (lowerStr sender = lowerStr character_name)
    let other := if is_out then recipient else sender
    let content := decode_eq_text t.snd.snd
    if !is_out && is_pet_spam content then (st, none)
    else
      (st, some { timestamp := entry.timestamp, channel := .tell,
                  sender := sender, content := content,
                  is_outgoing := is_out, tell_target := some other })
  else if let some c := SAY_OUT text then
    ({ st with last_was_die_roll := false },
     some { timestamp := entry.timestamp, channel := .say,
            sender := youStr, content := decode_eq_text c,
            is_outgoing := true })
  else if let some nc := SAY_IN text then
    let st := { st with last_was_die_roll := false }
    let content := decode_eq_text nc.snd
    if is_pet_spam content then (st, none)
    else
      (st, some { timestamp := entry.timestamp, channel := .say,
                  sender := nc.fst, content := content })
  else if let some name := RANDOM_ROLLER text then
    ({ pending_roller := some name, last_was_die_roll := true }, none)
  else if let some lhr := RANDOM_RESULT text then
    match st.pending_roller with
    | some roller =>
      if st.last_was_die_roll && !roller.isEmpty then
        let is_me := decide (lowerStr roller = lowerStr character_name)
        ({ pending_roller := none, last_was_die_roll := false },
         some { timestamp := entry.timestamp, channel := .random,
                sender := roller,
                content := lhr.snd.snd ++ " (".toList ++ lhr.fst ++
                  "-".toList ++ lhr.snd.fst ++ ")".toList,
                is_outgoing := is_me })
      else ({ st with last_was_die_roll := false }, none)
    | none => ({ st with last_was_die_roll := false }, none)
  else
    ({ st with last_was_die_roll := false }, none)

/-! ## Spell/combat line parsers (src/eq_overlay/core/log_parser.py) -/

/-- Pattern `^You begin casting (.+)\.$`. -/
def parse_casting (msg : Str) : Option Str :=
  betweenLits "You begin casting ".toList ".".toList msg

/-- Pattern `^Your (.+) begins to glow\.$`. -/
def parse_item_glow (msg : Str) : Option Str :=
  betweenLits "Your ".toList " begins to glow.".toList msg

/-- Pattern `^Your (.+) spell has worn off\.$`. -/
def parse_spell_worn_off (msg : Str) : Option Str :=
  betweenLits "Your ".toList " spell has worn off.".toList msg

def MELEE_VERBS : List String :=
  ["hit", "slash", "pierce", "crush", "bash", "kick", "punch", "strike",
   "slice", "claw", "bite", "sting", "maul", "gore", "smash", "backstab"]

def OTHER_VERBS : List String :=
  ["hits", "slashes", "pierces", "crushes", "bashes", "kicks", "punches",
   "strikes", "slices", "claws", "bites", "stings", "mauls", "gores",
   "smashes", "backstabs"]

def natOfDigits (d : Str) : Nat :=
  d.foldl (fun n c => n * 10 + (c.toNat - 48)) 0

/-- Pattern ` for (\d+) points? of damage\.$` (`points?` prefers the plural). -/
def dmgAmountTail (rest : Str) : Option Nat :=
  (afterLit " for ".toList rest).bind fun r =>
    (digitSplit r).bind fun dr =>
      if dr.snd = " points of damage.".toList ∨
          dr.snd = " point of damage.".toList then
        some (natOfDigits dr.fst)
      else none

/-- Embedding of `DAMAGE_PATTERN` (your melee damage). -/
def parse_your_damage (msg : Str) : Option (Str × Nat) :=
  (afterLit "You ".toList msg).bind fun rest =>
    (MELEE_VERBS.findSome? fun v => afterLit (v ++ " ").toList rest).bind
      fun r2 => greedySplit dmgAmountTail r2

/-- Embedding of `NON_MELEE_PATTERN`. -/
def parse_non_melee_damage (msg : Str) : Option (Str × Nat) :=
  greedySplit
    (fun rest =>
      (afterLit " was hit by non-melee".toList rest).bind dmgAmountTail)
    msg

/-- Embedding of `OTHER_DAMAGE_PATTERN` (lazy attacker group, then verb,
then greedy target group and the damage tail). -/
def parse_other_damage (msg : Str) : Option (Str × Str × Nat) :=
  (lazySplit
    (fun rest =>
      (OTHER_VERBS.findSome? fun v =>
        afterLit (" " ++ v ++ " ").toList rest).bind
        (greedySplit dmgAmountTail))
    msg).map fun pr => (pr.fst, pr.snd.fst, pr.snd.snd)

/-- Pattern `^You have slain (.+)!$`. -/
def parse_you_slain (msg : Str) : Option Str :=
  betweenLits "You have slain ".toList "!".toList msg

/-- Pattern `^(.+) has been slain by` under `re.match` (prefix match, nonempty
group). -/
def parse_other_slain (msg : Str) : Bool :=
  match msg with
  | [] => false
  | _ :: cs => strContains " has been slain by".toList cs

/-- Embedding of `LogParser.is_cast_failure` (substring membership). -/
def is_cast_failure (msg : Str) : Bool :=
  CAST_FAILURE_MESSAGES.any fun p => strContains p msg

/-- Embedding of `LogParser.is_blacklisted` (exact membership). -/
def is_blacklisted (msg : Str) : Bool :=
  BLACKLISTED_MESSAGES.contains msg

/-- Embedding of `LogParser.is_death` (`"You have been slain" in msg`). -/
def is_death (msg : Str) : Bool :=
  strContains "You have been slain".toList msg

def MSG_LEVI_FADING : Str := "You feel as if you are about to fall.".toList

def MSG_INVIS_FADING : Str :=
  "You feel yourself starting to appear.".toList

def MSG_ILLUSION_FADING : Str :=
  "You feel as if you are about to look like yourself again.".toList

/-- Embedding of `LogParser.is_buff_warning`. -/
def is_buff_warning (msg : Str) : Option Str :=
  if msg = MSG_LEVI_FADING then some "levitation".toList
  else if msg = MSG_INVIS_FADING then some "invisibility".toList
  else if msg = MSG_ILLUSION_FADING then some "illusion".toList
  else none

/-! ## Timer panel state (src/eq_overlay/timers/timer_panel.py) -/

structure PendingCast where
  spell_name : Str
  cast_time : Int
  log_timestamp : Int
  spell_info : Option SpellInfo := none
  timer_created : Bool := false
  item_name : Option Str := none
deriving DecidableEq

structure CombatState where
  combat_active : Bool := false
  combat_targets : List Str := []
  combat_start : Option Int := none
  combat_damage : List (Str × Nat) := []
  last_damage_time : Option Int := none
deriving DecidableEq

structure PlayerDps where
  name : Str
  damage : Nat
  dps : ℚ
deriving DecidableEq

structure DpsSnapshot where
  active : Bool
  ended : Bool
  target : Str
  num_targets : Nat
  duration : ℚ
  players : List PlayerDps
deriving DecidableEq

/-- Embedding of `self._combat_damage[player] = .get(player, 0) + amount`. -/
def bumpDamage (l : List (Str × Nat)) (p : Str) (amt : Nat) :
    List (Str × Nat) :=
  if (l.find? fun kv => decide (kv.fst = p)).isSome then
    l.map fun kv => if kv.fst = p then (p, kv.snd + amt) else kv
  else l ++ [(p, amt)]

/-- Embedding of `self._combat_targets.add(target)` (set membership add). -/
def addTarget (l : List Str) (t : Str) : List Str :=
  if l.contains t then l else l ++ [t]

def lookupDamage (l : List (Str × Nat)) (p : Str) : Nat :=
  (((l.find? fun kv => decide (kv.fst = p)).map fun kv => kv.snd).getD 0)

/-- Embedding of `TimerPanel._emit_dps`. -/
def emit_dps (now : Int) (c : CombatState) (final : Bool) :
    Option DpsSnapshot :=
  match c.combat_start with
  | none => none
  | some start =>
    let d0 : ℚ := ((now - start : Int) : ℚ)
    let duration := if d0 ≤ 0 then (1 : ℚ) / 10 else d0
    let players := c.combat_damage.map fun kv =>
      PlayerDps.mk kv.fst kv.snd ((kv.snd : ℚ) / duration)
    let sorted := players.mergeSort fun a b => b.damage ≤ a.damage
    let target_display :=
      match c.combat_targets with
      | [] => "Combat".toList
      | [t] => t
      | ts => (toString ts.length).toList ++ " targets".toList
    some ⟨!final, final, target_display, c.combat_targets.length, duration,
          sorted⟩

/-- Embedding of `TimerPanel._add_damage`. -/
def add_damage (now : Int) (c : CombatState) (player : Str) (amount : Nat)
    (target : Str) : CombatState × Option DpsSnapshot :=
  let c1 :=
    if !c.combat_active then
      { combat_active := true, combat_start := some now,
        combat_damage := [], combat_targets := [],
        last_damage_time := c.last_damage_time }
    else c
  let c2 :=
    if target.isEmpty then c1
    else { c1 with combat_targets := addTarget c1.combat_targets target }
  let dmg := bumpDamage c2.combat_damage player amount
  let c3 := { c2 with combat_damage := dmg, last_damage_time := some now }
  (c3, emit_dps now c3 false)

/-- Embedding of `TimerPanel._end_combat` (emits the final snapshot from
the still-active state, then deactivates). -/
def end_combat (now : Int) (c : CombatState) :
    CombatState × Option DpsSnapshot :=
  if c.combat_active then
    ({ c with combat_active := false, last_damage_time := none },
     emit_dps now c true)
  else (c, none)

/-- Embedding of `TimerPanel._check_combat_timeout` (strictly greater
than the timeout). -/
def check_combat_timeout (now timeout : Int) (c : CombatState) :
    CombatState × Option DpsSnapshot :=
  match c.last_damage_time with
  | some t =>
    if c.combat_active then
      if now - t > timeout then end_combat now c else (c, none)
    else (c, none)
  | none => (c, none)

/-! ## Learned items (src/eq_overlay/timers/timer_panel.py) -/

/-- Embedding of `TimerPanel._get_item_spell_name`; an entry may exist
with no spell name recorded (cast-time data only). -/
def get_item_spell_name (learned : List (Str × Option Str)) (item : Str) :
    Option Str :=
  match (learned.find? fun kv => decide (kv.fst = item)).map
    (fun kv => kv.snd) with
  | some (some sp) => some sp
  | _ => none

/-- Embedding of `TimerPanel._learn_item_spell` (never overwrites an
existing association). -/
def learn_item_spell (learned : List (Str × Option Str))
    (item spell_name : Str) : List (Str × Option Str) :=
  match learned.find? fun kv => decide (kv.fst = item) with
  | none => learned ++ [(item, some spell_name)]
  | some (_, some _) => learned
  | some (_, none) =>
    learned.map fun kv =>
      if kv.fst = item then (item, some spell_name) else kv

/-- Embedding of `self._item_cast_times[item_name] = rounded_ms`. -/
def set_item_cast_time (l : List (Str × Int)) (item : Str) (ms : Int) :
    List (Str × Int) :=
  if (l.find? fun kv => decide (kv.fst = item)).isSome then
    l.map fun kv => if kv.fst = item then (item, ms) else kv
  else l ++ [(item, ms)]

structure PanelState where
  pending_cast : Option PendingCast := none
  item_cast_times : List (Str × Int) := []
  last_entry_was_cast : Bool := false
  learned_items : List (Str × Option Str) := []
  timer_mgr : TimerManager := ⟨[]⟩
  combat : CombatState := {}
deriving DecidableEq

/-- The spell catalog as consumed by the panel: lookup indices built at
load time (src/eq_overlay/timers/spell_database.py).  `by_cast_on_other`
is the insertion-ordered suffix dictionary iterated by
`_check_cast_on_other`. -/
structure SpellDb where
  by_name : Str → Option SpellInfo
  find_by_cast_on_you : Str → List SpellInfo
  find_by_fades : Str → List SpellInfo
  by_cast_on_other : List (Str × List SpellInfo)

structure TimersConfig where
  cast_window_seconds : Int
  combat_timeout_seconds : Int
deriving DecidableEq

/-- Embedding of the cast-on-you branch of
`TimerPanel._process_log_entry` (source lines 363-408).  Timestamps are
whole seconds, so `round(elapsed_ms / 1000) * 1000` is the identity on
`elapsed_ms`. -/
def castOnYouStep (cfg : TimersConfig) (level : Nat) (now : Int)
    (st : PanelState) (entry_ts : Int) (spells : List SpellInfo) :
    PanelState :=
  let r : Bool × Option Str × Option Str × Option Int ×
      Option PendingCast :=
    match st.pending_cast with
    | some pc =>
      if entry_ts - pc.log_timestamp < cfg.cast_window_seconds then
        match spells.find? fun s => decide (s.name = pc.spell_name) with
        | some s => (true, some s.name, pc.item_name, some pc.cast_time,
                     none)
        | none => (false, none, none, none, st.pending_cast)
      else (false, none, none, none, st.pending_cast)
    | none => (false, none, none, none, none)
  let is_self_cast := r.fst
  let prefer_name := r.snd.fst
  let item_name := r.snd.snd.fst
  let cast_start := r.snd.snd.snd.fst
  let pending2 := r.snd.snd.snd.snd
  let ict :=
    match item_name, cast_start with
    | some item, some cs =>
      let rounded_ms := (now - cs) * 1000
      if 0 < rounded_ms then
        set_item_cast_time st.item_cast_times item rounded_ms
      else st.item_cast_times
    | _, _ => st.item_cast_times
  let st1 := { st with pending_cast := pending2, item_cast_times := ict }
  match best_match spells prefer_name with
  | none => st1
  | some spell =>
    let learned :=
      match item_name with
      | some item => learn_item_spell st1.learned_items item spell.name
      | none => st1.learned_items
    let st2 := { st1 with learned_items := learned }
    let duration := spell.get_duration_seconds level
    if 0 < duration then
      let category :=
        if is_self_cast then TimerCategory.self_buff
        else TimerCategory.received_buff
      let tmr : ActiveTimer :=
        ⟨spell.name, youStr, now + duration, duration, category,
         some spell⟩
      { st2 with timer_mgr := st2.timer_mgr.add tmr }
    else st2

/-- The suffix loop of `TimerPanel._check_cast_on_other`.  A `none`
result models the `AttributeError` the source raises when a suffix hit
cleared the pending cast and a later suffix also matches the message
(`self._pending_cast.cast_time` on `None`). -/
def castOnOtherGo (cfg : TimersConfig) (level : Nat) (now : Int)
    (msg : Str) : List (Str × List SpellInfo) → PanelState →
    Option PanelState
  | [], st => some st
  | (sfx, spells) :: rest, st =>
    if sfx.isEmpty || !(sfx.isSuffixOf msg) then
      castOnOtherGo cfg level now msg rest st
    else
      let target := msg.take (msg.length - sfx.length)
      if target.isEmpty || target.head? == some ' ' then
        castOnOtherGo cfg level now msg rest st
      else
        match st.pending_cast with
        | none => none
        | some pc =>
          let prefer : Option Str :=
            if now - pc.cast_time < cfg.cast_window_seconds then
              (spells.find? fun s =>
                decide (s.name = pc.spell_name)).map fun s => s.name
            else none
          match prefer with
          | none => castOnOtherGo cfg level now msg rest st
          | some p =>
            let item_name := pc.item_name
            let cast_start := pc.cast_time
            let st1 := { st with pending_cast := none }
            match best_match spells (some p) with
            | none => castOnOtherGo cfg level now msg rest st1
            | some spell =>
              let st2 :=
                match item_name with
                | some item =>
                  let rounded_ms := (now - cast_start) * 1000
                  let ict :=
                    if 0 < rounded_ms then
                      set_item_cast_time st1.item_cast_times item
                        rounded_ms
                    else st1.item_cast_times
                  let li :=
                    learn_item_spell st1.learned_items item spell.name
                  { st1 with item_cast_times := ict, learned_items := li }
                | none => st1
              let duration := spell.get_duration_seconds level
              if duration = 0 then
                castOnOtherGo cfg level now msg rest st2
              else
                let category :=
                  if spell.is_beneficial then TimerCategory.other_buff
                  else TimerCategory.debuff
                let tmr : ActiveTimer :=
                  ⟨spell.name, target, now + duration, duration,
                   category, some spell⟩
                some { st2 with timer_mgr := st2.timer_mgr.add tmr }

/-- Embedding of `TimerPanel._check_cast_on_other`. -/
def check_cast_on_other (db : SpellDb) (cfg : TimersConfig) (level : Nat)
    (now : Int) (st : PanelState) (msg : Str) : Option PanelState :=
  match st.pending_cast with
  | none => some st
  | some _ => castOnOtherGo cfg level now msg db.by_cast_on_other st

/-- Embedding of `TimerPanel._process_log_entry`: the branch dispatch in
source order.  The adjacency flag is saved and reset before any branch
runs; only the casting branch sets it.  The cast-on-other check does not
return: its result state flows into the buff-warning/damage/slain
checks.  A `none` result propagates the modelled exception. -/
def process_log_entry (db : SpellDb) (cfg : TimersConfig) (level : Nat)
    (now : Int) (st : PanelState) (entry : LogEntry) :
    Option PanelState :=
  let msg := entry.message
  let prev_was_cast := st.last_entry_was_cast
  let st := { st with last_entry_was_cast := false }
  if is_blacklisted msg then some st
  else if is_death msg then
    let cmb := (end_combat now st.combat).fst
    some { st with timer_mgr := st.timer_mgr.clear, combat := cmb }
  else if is_cast_failure msg then some { st with pending_cast := none }
  else
    match parse_casting msg with
    | some spell_name =>
      let pc : PendingCast :=
        ⟨spell_name, now, entry.timestamp, db.by_name spell_name, false,
         none⟩
      some { st with pending_cast := some pc,
                     last_entry_was_cast := true }
    | none =>
    match parse_item_glow msg with
    | some item_name =>
      let st1 :=
        match st.pending_cast with
        | some pc =>
          if pc.item_name.isNone && prev_was_cast then
            { st with pending_cast := some
                        { pc with item_name := some item_name } }
          else st
        | none => st
      some
        (match st1.pending_cast with
         | none =>
           match get_item_spell_name st1.learned_items item_name with
           | some spell_name =>
             let pc : PendingCast :=
               ⟨spell_name, now, entry.timestamp, db.by_name spell_name,
                false, some item_name⟩
             { st1 with pending_cast := some pc }
           | none => st1
         | some _ => st1)
    | none =>
    match db.find_by_fades msg with
    | f :: fs =>
      let tm :=
        (f :: fs).foldl (fun m s => m.remove s.name youStr) st.timer_mgr
      some { st with timer_mgr := tm }
    | [] =>
    match parse_spell_worn_off msg with
    | some spell_name =>
      some { st with timer_mgr := st.timer_mgr.remove spell_name youStr }
    | none =>
    match db.find_by_cast_on_you msg with
    | s :: ss =>
      some (castOnYouStep cfg level now st entry.timestamp (s :: ss))
    | [] =>
    match check_cast_on_other db cfg level now st msg with
    | none => none
    | some st2 =>
    match is_buff_warning msg with
    | some _ => some st2
    | none =>
    match parse_your_damage msg with
    | some ta =>
      let cmb := (add_damage now st2.combat youStr ta.snd ta.fst).fst
      some { st2 with combat := cmb }
    | none =>
    match parse_non_melee_damage msg with
    | some ta =>
      let cmb := (add_damage now st2.combat youStr ta.snd ta.fst).fst
      some { st2 with combat := cmb }
    | none =>
    match parse_other_damage msg with
    | some atd =>
      let cmb :=
        (add_damage now st2.combat atd.fst atd.snd.snd atd.snd.fst).fst
      some { st2 with combat := cmb }
    | none =>
    match parse_you_slain msg with
    | some _ =>
      some { st2 with combat := (end_combat now st2.combat).fst }
    | none =>
    if parse_other_slain msg then
      some { st2 with combat := (end_combat now st2.combat).fst }
    else some st2

/-! ## Backward time-bounded scan (src/eq_overlay/core/log_watcher.py,
`LogWatcher.load_raw_history`)

The file is modelled as a list of physical lines; each line carries its
byte length (including the newline) and the result of
`LogParser.parse_line` on it (`none` when the line fails the timestamp
envelope).  Byte positions are recovered from the cumulative lengths.
`skipLen` models `f.seek(pos); f.readline()`: reading from inside (or at
the start of) a line consumes up to and including its newline;
reading at or past end of file leaves the position unchanged. -/

structure ScanLine where
  entry : Option LogEntry
  len : Nat
deriving DecidableEq

def fileSize (file : List ScanLine) : Nat := (file.map (fun l => l.len)).sum

/-- Position after `f.seek(pos); f.readline()`. -/
def skipLen : List ScanLine → Nat → Nat
  | [], pos => pos
  | l :: ls, pos =>
    if pos < l.len then l.len else l.len + skipLen ls (pos - l.len)

/-- Entries produced by reading forward from byte position `pos`,
parsing each complete line (a fragment of a line cut at `pos` loses its
timestamp envelope and yields no entry). -/
def entriesFrom : List ScanLine → Nat → List LogEntry
  | [], _ => []
  | l :: ls, pos =>
    if pos < l.len then
      (if pos = 0 then l.entry.toList else []) ++ entriesFrom ls 0
    else entriesFrom ls (pos - l.len)

/-- The line starting exactly at byte position `pos`, if any. -/
def firstLineAt : List ScanLine → Nat → Option ScanLine
  | [], _ => none
  | l :: ls, pos =>
    if pos = 0 then some l
    else if pos < l.len then none
    else firstLineAt ls (pos - l.len)

/-- The backward chunk loop of `load_raw_history`: from `endPos`, seek
back one chunk, discard the partial first line, and stop at the first
chunk whose first complete line parses with a timestamp before the
cutoff.  The loop strictly decreases `endPos`, so `fileSize + 1` fuel is
always sufficient; the fuel-exhausted and non-progress branches (the
latter is where the source would loop forever on a line longer than a
chunk) return position 0. -/
def backScanGo (file : List ScanLine) (chunk : Nat) (cutoff : Int) :
    Nat → Nat → Nat
  | 0, _ => 0
  | fuel + 1, endPos =>
    if endPos = 0 then 0
    else
      let startPos := endPos - chunk
      let chunkStart := if startPos = 0 then 0 else skipLen file startPos
      let brk :=
        match firstLineAt file chunkStart with
        | some l =>
          match l.entry with
          | some e => decide (e.timestamp < cutoff)
          | none => false
        | none => false
      if brk then chunkStart
      else if chunkStart < endPos then
        backScanGo file chunk cutoff fuel chunkStart
      else 0

/-- Embedding of `LogWatcher.load_raw_history`: backward scan for the
start boundary, then one forward pass (skipping one line when the
boundary is not the file start) filtering `timestamp >= cutoff`. -/
def load_raw_history (file : List ScanLine) (chunk : Nat) (cutoff : Int) :
    List LogEntry :=
  let startReadPos :=
    backScanGo file chunk cutoff (fileSize file + 1) (fileSize file)
  let pos := if startReadPos = 0 then 0 else skipLen file startReadPos
  (entriesFrom file pos).filter fun e => decide (cutoff ≤ e.timestamp)

/-- The naive single forward pass over the whole file with the same
cutoff filter. -/
def naive_history (file : List ScanLine) (cutoff : Int) : List LogEntry :=
  (file.filterMap fun l => l.entry).filter fun e =>
    decide (cutoff ≤ e.timestamp)

/-! ## Concrete sample data used by witnesses and counterexamples -/

/-- A record whose duration formula is 0 with a nonzero base: its
`has_duration` flag is set, yet its computed duration is 0 at every
level (formula 0 yields 0 ticks regardless of base). -/
def spellZeroDuration : SpellInfo :=
  { id := 1, name := "Stasis".toList, cast_on_you := [],
    cast_on_other := [], spell_fades := [], duration_formula := 0,
    duration_base := 5 }

/-- A record with formula 4, base 10: computed duration 60 seconds. -/
def spellSixtySeconds : SpellInfo :=
  { id := 2, name := "Courage".toList, cast_on_you := [],
    cast_on_other := [], spell_fades := [], duration_formula := 4,
    duration_base := 10 }

end EQOverlay

namespace EQOverlay

/-! # Theorems -/

/-- C1: for every formula id, base and level, the Tick Formula returns
ticks times 6 seconds with the ticks computed per the documented table
(ids 0-12, 15, 50, 3600 and the fallback), including the quoted
examples: formula 4 with base 0 yields 300s at any level, formula 1 with
base 0 and level 10 yields 30s, formula 1 with base 2 and level 10
yields 12s (capped), and formula 50 yields 432000s for any inputs.  The
function is structurally total. -/
theorem tick_formula_matches_documented_table :
    (∀ formula base level : Nat,
      calculate formula base level =
        SECONDS_PER_TICK * spec_tick_table formula base level) ∧
    (∀ level : Nat, calculate 4 0 level = 300) ∧
    calculate 1 0 10 = 30 ∧
    calculate 1 2 10 = 12 ∧
    (∀ base level : Nat, calculate 50 base level = 432000) := by
  refine ⟨?_, ?_, rfl, rfl, ?_⟩
  · intro f b l
    suffices h : get_ticks f b l = spec_tick_table f b l by
      simp only [calculate, SECONDS_PER_TICK, h, Nat.mul_comm]
    rcases eq_or_ne f 0 with rfl | h0
    · rfl
    rcases eq_or_ne f 1 with rfl | h1
    · rfl
    rcases eq_or_ne f 2 with rfl | h2
    · rfl
    rcases eq_or_ne f 3 with rfl | h3
    · rfl
    rcases eq_or_ne f 4 with rfl | h4
    · rfl
    rcases eq_or_ne f 5 with rfl | h5
    · rfl
    rcases eq_or_ne f 6 with rfl | h6
    · rfl
    rcases eq_or_ne f 7 with rfl | h7
    · rfl
    rcases eq_or_ne f 8 with rfl | h8
    · rfl
    rcases eq_or_ne f 9 with rfl | h9
    · rfl
    rcases eq_or_ne f 10 with rfl | h10
    · rfl
    rcases eq_or_ne f 11 with rfl | h11
    · rfl
    rcases eq_or_ne f 12 with rfl | h12
    · rfl
    rcases eq_or_ne f 15 with rfl | h15
    · rfl
    rcases eq_or_ne f 50 with rfl | h50
    · rfl
    rcases eq_or_ne f 3600 with rfl | h3600
    · rfl
    simp [get_ticks, spec_tick_table, h0, h1, h2, h3, h4, h5, h6, h7,
      h8, h9, h10, h11, h12, h15, h50, h3600]
  · intro level
    rfl
  · intro base level
    simp [calculate, get_ticks, PERMANENT_TICKS, SECONDS_PER_TICK]

/-- C7 counterexample: the claim says best-match (with no preferred
name) returns the first candidate whose computed duration is non-zero;
the code instead tests the `has_duration` flag, which is set for formula
0 with a nonzero base even though the computed duration is 0.  Here the
code returns `spellZeroDuration` (computed duration 0 at level 60)
although `spellSixtySeconds` (computed duration 60) follows it. -/
theorem best_match_duration_flag_counterexample :
    best_match [spellZeroDuration, spellSixtySeconds] none =
      some spellZeroDuration ∧
    spellZeroDuration.get_duration_seconds 60 = 0 ∧
    spellSixtySeconds.get_duration_seconds 60 = 60 := by
  exact ⟨rfl, rfl, rfl⟩

/-- C7 as amended: for a non-empty candidate list, best-match returns
the first candidate bearing the supplied preferred name when present;
otherwise the first candidate whose `has_duration` flag is set, i.e.
whose (duration formula, duration base) differs from (0, 0) — which can
have computed duration zero; otherwise the first candidate in catalog
order.  For an empty list it returns nothing. -/
theorem best_match_tie_break :
    (∀ prefer_name : Option Str, best_match [] prefer_name = none) ∧
    (∀ (spells : List SpellInfo) (p : Str) (s : SpellInfo),
      spells.find? (fun x => decide (x.name = p)) = some s →
      best_match spells (some p) = some s) ∧
    (∀ (spells : List SpellInfo) (prefer_name : Option Str),
      (∀ p, prefer_name = some p → ∀ s ∈ spells, s.name ≠ p) →
      best_match spells prefer_name =
        ((spells.filter fun s => s.has_duration).head?).orElse
          (fun _ => spells.head?)) := by
  refine ⟨fun _ => rfl, ?_, ?_⟩
  · intro spells p s h
    cases spells with
    | nil => simp [List.find?] at h
    | cons a as =>
      simp only [best_match, List.isEmpty_cons, Bool.false_eq_true,
        if_false, h]
  · intro spells prefer_name hp
    cases prefer_name with
    | none =>
      cases spells with
      | nil => rfl
      | cons a as =>
        simp only [best_match, List.isEmpty_cons, Bool.false_eq_true,
          if_false]
        cases hh : ((a :: as).filter fun s => s.has_duration).head? <;>
          simp [hh, Option.orElse]
    | some p =>
      cases spells with
      | nil => rfl
      | cons a as =>
        have hfind :
            (a :: as).find? (fun s => decide (s.name = p)) = none := by
          simp only [List.find?_eq_none]
          intro s hs
          simpa using hp p rfl s hs
        simp only [best_match, List.isEmpty_cons, Bool.false_eq_true,
          if_false, hfind]
        cases hh : ((a :: as).filter fun s => s.has_duration).head? <;>
          simp [hh, Option.orElse]

/-- C7 amended-claim witness at concrete inputs. -/
theorem best_match_tie_break_witness :
    best_match [spellZeroDuration, spellSixtySeconds]
        (some "Courage".toList) = some spellSixtySeconds ∧
    best_match [spellZeroDuration, spellSixtySeconds]
        (some "Absent".toList) =
      ((([spellZeroDuration, spellSixtySeconds].filter
          fun s => s.has_duration).head?).orElse
        (fun _ => [spellZeroDuration, spellSixtySeconds].head?)) := by
  constructor
  · exact best_match_tie_break.2.1 _ _ _ (by decide)
  · refine best_match_tie_break.2.2 _ _ ?_
    intro p hp s hs
    injection hp with h
    subst h
    rcases List.mem_cons.mp hs with h1 | hs2
    · subst h1; decide
    · rcases List.mem_cons.mp hs2 with h1 | h1
      · subst h1; decide
      · cases h1

/-! ## Association-list lemmas for the timer registry -/

theorem find?_map_replace_hit
    (l : List ((Str × Str) × ActiveTimer)) (key : Str × Str)
    (t : ActiveTimer)
    (h : (l.find? fun kv => decide (kv.fst = key)).isSome) :
    (l.map fun kv => if kv.fst = key then (key, t) else kv).find?
      (fun kv => decide (kv.fst = key)) = some (key, t) := by
  induction l with
  | nil => simp at h
  | cons a as ih =>
    by_cases hk : a.fst = key
    · simp [List.find?_cons, hk, decide_eq_true rfl]
    · have hd : decide (a.fst = key) = false := decide_eq_false hk
      simp only [List.find?_cons, hd] at h
      simp only [List.map_cons, if_neg hk, List.find?_cons, hd]
      exact ih h

theorem find?_map_replace_miss
    (l : List ((Str × Str) × ActiveTimer)) (key k : Str × Str)
    (t : ActiveTimer) (hk : k ≠ key) :
    (l.map fun kv => if kv.fst = key then (key, t) else kv).find?
      (fun kv => decide (kv.fst = k)) =
    l.find? (fun kv => decide (kv.fst = k)) := by
  have hkne : decide (key = k) = false :=
    decide_eq_false fun h => hk h.symm
  induction l with
  | nil => rfl
  | cons a as ih =>
    by_cases ha : a.fst = key
    · have hda : decide (a.fst = k) = false := by rw [ha]; exact hkne
      simp only [List.map_cons, if_pos ha, List.find?_cons, hkne, hda]
      exact ih
    · simp only [List.map_cons, if_neg ha]
      by_cases hak : a.fst = k
      · simp [List.find?_cons, hak, decide_eq_true rfl]
      · have hda : decide (a.fst = k) = false := decide_eq_false hak
        simp only [List.find?_cons, hda]
        exact ih

theorem find?_append_one_hit
    (l : List ((Str × Str) × ActiveTimer)) (key : Str × Str)
    (t : ActiveTimer)
    (h : l.find? (fun kv => decide (kv.fst = key)) = none) :
    (l ++ [(key, t)]).find? (fun kv => decide (kv.fst = key)) =
      some (key, t) := by
  induction l with
  | nil => simp [List.find?_cons, decide_eq_true rfl]
  | cons a as ih =>
    by_cases hk : a.fst = key
    · have hd : decide (a.fst = key) = true := decide_eq_true hk
      simp only [List.find?_cons, hd] at h
      cases h
    · have hd : decide (a.fst = key) = false := decide_eq_false hk
      simp only [List.find?_cons, hd] at h
      simp only [List.cons_append, List.find?_cons, hd]
      exact ih h

theorem find?_append_one_miss
    (l : List ((Str × Str) × ActiveTimer)) (key k : Str × Str)
    (t : ActiveTimer) (hk : k ≠ key) :
    (l ++ [(key, t)]).find? (fun kv => decide (kv.fst = k)) =
      l.find? (fun kv => decide (kv.fst = k)) := by
  have hkne : decide (key = k) = false :=
    decide_eq_false fun h => hk h.symm
  induction l with
  | nil => simp [List.find?_cons, hkne]
  | cons a as ih =>
    by_cases hak : a.fst = k
    · simp [List.find?_cons, hak, decide_eq_true rfl]
    · have hda : decide (a.fst = k) = false := decide_eq_false hak
      simp only [List.cons_append, List.find?_cons, hda]
      exact ih

/-- C2: Timer Registry refresh never shortens a timer.  When an entry
exists for (spell, target), `add` replaces it exactly when the new end
time is strictly later and is the identity otherwise; when no entry
exists, the timer is inserted; every other key is unchanged. -/
theorem timer_registry_refresh_never_shortens
    (m : TimerManager) (t : ActiveTimer) :
    (m.lookup (t.spell_name, t.target) = none →
      (m.add t).lookup (t.spell_name, t.target) = some t) ∧
    (∀ e, m.lookup (t.spell_name, t.target) = some e →
      (e.end_time < t.end_time →
        (m.add t).lookup (t.spell_name, t.target) = some t) ∧
      (¬ e.end_time < t.end_time → m.add t = m)) ∧
    (∀ k, k ≠ (t.spell_name, t.target) →
      (m.add t).lookup k = m.lookup k) := by
  refine ⟨?_, ?_, ?_⟩
  · intro h
    have hf : m.timers.find?
        (fun kv => decide (kv.fst = (t.spell_name, t.target))) = none := by
      simp only [TimerManager.lookup] at h
      exact Option.map_eq_none'.mp h
    simp only [TimerManager.add, h]
    simp only [TimerManager.lookup]
    rw [find?_append_one_hit _ _ _ hf]
    rfl
  · intro e he
    have hf : (m.timers.find?
        fun kv => decide (kv.fst = (t.spell_name, t.target))).isSome := by
      simp only [TimerManager.lookup] at he
      cases hfe : m.timers.find?
        (fun kv => decide (kv.fst = (t.spell_name, t.target))) with
      | none => rw [hfe] at he; cases he
      | some kv => simp [hfe]
    constructor
    · intro hlt
      simp only [TimerManager.add, he, if_pos hlt]
      simp only [TimerManager.lookup]
      rw [find?_map_replace_hit _ _ _ hf]
      rfl
    · intro hge
      simp only [TimerManager.add, he, if_neg hge]
  · intro k hk
    simp only [TimerManager.add]
    cases hl : m.lookup (t.spell_name, t.target) with
    | none =>
      simp only [TimerManager.lookup]
      rw [find?_append_one_miss _ _ _ _ hk]
    | some e =>
      by_cases hlt : e.end_time < t.end_time
      · simp only [if_pos hlt, TimerManager.lookup]
        rw [find?_map_replace_miss _ _ _ _ hk]
      · simp only [if_neg hlt]

/-- Concrete timers and registry used by the C2 witness. -/
def timerA : ActiveTimer :=
  ⟨"Courage".toList, "You".toList, 100, 60, TimerCategory.self_buff, none⟩

def timerLater : ActiveTimer :=
  ⟨"Courage".toList, "You".toList, 150, 60, TimerCategory.self_buff, none⟩

def timerEarlier : ActiveTimer :=
  ⟨"Courage".toList, "You".toList, 100, 60, TimerCategory.self_buff, none⟩

def mgrOne : TimerManager :=
  ⟨[(("Courage".toList, "You".toList), timerA)]⟩

/-- C2 witness: a strictly-later refresh replaces, an equal end time is
a no-op, and an insert lands for an absent key. -/
theorem timer_registry_refresh_witness :
    (mgrOne.add timerLater).lookup ("Courage".toList, "You".toList) =
      some timerLater ∧
    mgrOne.add timerEarlier = mgrOne ∧
    ((⟨[]⟩ : TimerManager).add timerA).lookup
      ("Courage".toList, "You".toList) = some timerA := by
  refine ⟨?_, ?_, ?_⟩
  · exact ((timer_registry_refresh_never_shortens mgrOne timerLater).2.1
      timerA (by decide)).1 (by decide)
  · exact ((timer_registry_refresh_never_shortens mgrOne
      timerEarlier).2.1 timerA (by decide)).2 (by decide)
  · exact (timer_registry_refresh_never_shortens ⟨[]⟩ timerA).1
      (by decide)

/-! ## Concrete chat lines for the die-roll and pet-spam theorems -/

def rollChar : Str := "Me".toList

def rollOpenerLine : Str := "**A Magic Die is rolled by Bob.".toList

def rollResultLine : Str :=
  ("**It could have been any number from 1 to 100, " ++
    "but this time it turned up a 42.").toList

def guildChatLine : Str :=
  "Soandso tells the guild, ".toList ++ [quoteChar] ++ "hi".toList ++
    [quoteChar]

def tellChatLine : Str :=
  "Soandso tells you, ".toList ++ [quoteChar] ++ "hi".toList ++
    [quoteChar]

def sayChatLine : Str :=
  "Soandso says, ".toList ++ [quoteChar] ++ "hail".toList ++ [quoteChar]

def unrelatedLine : Str := "You have entered East Commonlands.".toList

/-- C5 counterexample: the claim says that when the roll-pending flag is
set, any next line that does not match the result template clears the
flag, so a later result line no longer produces a Roll event.  In the
code the guild branch returns before the flag reset: after the opener,
an intervening guild chat line leaves the flag set (and is classified
normally), and the following result line still emits the Roll event. -/
theorem die_roll_guild_line_counterexample :
    (parse_chat_message rollChar
        (parse_chat_message rollChar
          (parse_chat_message rollChar {} ⟨0, rollOpenerLine⟩).fst
          ⟨1, guildChatLine⟩).fst
        ⟨2, rollResultLine⟩).snd =
      some { timestamp := 2, channel := .random, sender := "Bob".toList,
             content := "42 (1-100)".toList, is_outgoing := false } ∧
    ((parse_chat_message rollChar
        (parse_chat_message rollChar {} ⟨0, rollOpenerLine⟩).fst
        ⟨1, guildChatLine⟩).snd.map fun m => m.channel) =
      some ChannelType.guild := by
  exact ⟨rfl, rfl⟩

/-- C5 as amended: a roll-opener line sets the roll-pending flag and
emits nothing; a result-template line emits the Roll event (with the
stored roller and the parsed value and range) exactly when the flag is
set; the flag is cleared by a following say line or by a line matching
none of the chat patterns, but a line handled by the guild, ooc, group,
shout, auction or tell branches returns its own classification with the
flag left set, so a result line after such an intervening line still
produces the Roll event. -/
theorem die_roll_sequence :
    (∀ (st : ChatState) (ts : Int),
      parse_chat_message rollChar st ⟨ts, rollOpenerLine⟩ =
        ({ pending_roller := some "Bob".toList,
           last_was_die_roll := true }, none)) ∧
    (∀ ts : Int,
      parse_chat_message rollChar
        { pending_roller := some "Bob".toList, last_was_die_roll := true }
        ⟨ts, rollResultLine⟩ =
        (({ pending_roller := none,
            last_was_die_roll := false } : ChatState),
         some { timestamp := ts, channel := .random,
                sender := "Bob".toList, content := "42 (1-100)".toList,
                is_outgoing := false })) ∧
    (∀ (st : ChatState) (ts : Int),
      parse_chat_message rollChar st ⟨ts, sayChatLine⟩ =
        ({ st with last_was_die_roll := false },
         some { timestamp := ts, channel := .say,
                sender := "Soandso".toList,
                content := "hail".toList })) ∧
    (∀ (st : ChatState) (ts : Int),
      parse_chat_message rollChar st ⟨ts, unrelatedLine⟩ =
        ({ st with last_was_die_roll := false }, none)) ∧
    (∀ (pr : Option Str) (ts : Int),
      parse_chat_message rollChar ⟨pr, false⟩ ⟨ts, rollResultLine⟩ =
        (⟨pr, false⟩, none)) ∧
    (∀ (st : ChatState) (ts : Int),
      (parse_chat_message rollChar st ⟨ts, guildChatLine⟩).fst = st ∧
      (parse_chat_message rollChar st ⟨ts, tellChatLine⟩).fst = st) := by
  refine ⟨fun st ts => rfl, fun ts => rfl, fun st ts => rfl,
    fun st ts => rfl, ?_, fun st ts => ⟨rfl, rfl⟩⟩
  intro pr ts
  cases pr <;> rfl

/-- C10: a line that reaches the incoming tell, arrow-tell or say branch
whose decoded content is pet spam (one of the fixed phrases, or
`attacking ... master.`, compared case-insensitively) yields no chat
message; the same content in an outgoing tell, outgoing arrow-tell or
outgoing say is not filtered and yields the normal message.  The
hypotheses state that the earlier branches of the dispatch chain do not
match the line, i.e. that the line is classified by the branch in
question. -/
theorem pet_spam_suppression :
    (∀ (cname : Str) (st : ChatState) (ts : Int)
        (text sender content : Str),
      GUILD_OUT text = none → GUILD_IN text = none →
      OOC_OUT text = none → OOC_IN text = none →
      GROUP_OUT text = none → GROUP_IN text = none →
      SHOUT_OUT text = none → SHOUT_IN text = none →
      AUCTION_OUT text = none → AUCTION_IN text = none →
      TELL_IN text = some (sender, content) →
      is_pet_spam (decode_eq_text content) = true →
      parse_chat_message cname st ⟨ts, text⟩ = (st, none)) ∧
    (∀ (cname : Str) (st : ChatState) (ts : Int)
        (text sender recipient content : Str),
      GUILD_OUT text = none → GUILD_IN text = none →
      OOC_OUT text = none → OOC_IN text = none →
      GROUP_OUT text = none → GROUP_IN text = none →
      SHOUT_OUT text = none → SHOUT_IN text = none →
      AUCTION_OUT text = none → AUCTION_IN text = none →
      TELL_IN text = none → TELL_OUT text = none →
      TELL_ARROW text = some (sender, recipient, content) →
      lowerStr sender ≠ lowerStr cname →
      is_pet_spam (decode_eq_text content) = true →
      parse_chat_message cname st ⟨ts, text⟩ = (st, none)) ∧
    (∀ (cname : Str) (st : ChatState) (ts : Int)
        (text sender content : Str),
      GUILD_OUT text = none → GUILD_IN text = none →
      OOC_OUT text = none → OOC_IN text = none →
      GROUP_OUT text = none → GROUP_IN text = none →
      SHOUT_OUT text = none → SHOUT_IN text = none →
      AUCTION_OUT text = none → AUCTION_IN text = none →
      TELL_IN text = none → TELL_OUT text = none →
      TELL_ARROW text = none → SAY_OUT text = none →
      SAY_IN text = some (sender, content) →
      is_pet_spam (decode_eq_text content) = true →
      parse_chat_message cname st ⟨ts, text⟩ =
        ({ st with last_was_die_roll := false }, none)) ∧
    (∀ (cname : Str) (st : ChatState) (ts : Int)
        (text recipient content : Str),
      GUILD_OUT text = none → GUILD_IN text = none →
      OOC_OUT text = none → OOC_IN text = none →
      GROUP_OUT text = none → GROUP_IN text = none →
      SHOUT_OUT text = none → SHOUT_IN text = none →
      AUCTION_OUT text = none → AUCTION_IN text = none →
      TELL_IN text = none →
      TELL_OUT text = some (recipient, content) →
      parse_chat_message cname st ⟨ts, text⟩ =
        (st, some { timestamp := ts, channel := .tell, sender := youStr,
                    content := decode_eq_text content,
                    is_outgoing := true,
                    tell_target := some recipient })) ∧
    (∀ (cname : Str) (st : ChatState) (ts : Int)
        (text sender recipient content : Str),
      GUILD_OUT text = none → GUILD_IN text = none →
      OOC_OUT text = none → OOC_IN text = none →
      GROUP_OUT text = none → GROUP_IN text = none →
      SHOUT_OUT text = none → SHOUT_IN text = none →
      AUCTION_OUT text = none → AUCTION_IN text = none →
      TELL_IN text = none → TELL_OUT text = none →
      TELL_ARROW text = some (sender, recipient, content) →
      lowerStr sender = lowerStr cname →
      parse_chat_message cname st ⟨ts, text⟩ =
        (st, some { timestamp := ts, channel := .tell, sender := sender,
                    content := decode_eq_text content,
                    is_outgoing := true,
                    tell_target := some recipient })) ∧
    (∀ (cname : Str) (st : ChatState) (ts : Int) (text content : Str),
      GUILD_OUT text = none → GUILD_IN text = none →
      OOC_OUT text = none → OOC_IN text = none →
      GROUP_OUT text = none → GROUP_IN text = none →
      SHOUT_OUT text = none → SHOUT_IN text = none →
      AUCTION_OUT text = none → AUCTION_IN text = none →
      TELL_IN text = none → TELL_OUT text = none →
      TELL_ARROW text = none →
      SAY_OUT text = some content →
      parse_chat_message cname st ⟨ts, text⟩ =
        ({ st with last_was_die_roll := false },
         some { timestamp := ts, channel := .say, sender := youStr,
                content := decode_eq_text content,
                is_outgoing := true })) := by
  refine ⟨?_, ?_, ?_, ?_, ?_, ?_⟩
  · intro cname st ts text sender content h1 h2 h3 h4 h5 h6 h7 h8 h9 h10
      h11 hpet
    simp only [parse_chat_message, h1, h2, h3, h4, h5, h6, h7, h8, h9,
      h10, h11, hpet, if_true]
  · intro cname st ts text sender recipient content h1 h2 h3 h4 h5 h6 h7
      h8 h9 h10 h11 h12 h13 hne hpet
    simp only [parse_chat_message, h1, h2, h3, h4, h5, h6, h7, h8, h9,
      h10, h11, h12, h13, hpet, decide_eq_false hne, Bool.not_false,
      Bool.true_and, if_true]
  · intro cname st ts text sender content h1 h2 h3 h4 h5 h6 h7 h8 h9 h10
      h11 h12 h13 h14 h15 hpet
    simp only [parse_chat_message, h1, h2, h3, h4, h5, h6, h7, h8, h9,
      h10, h11, h12, h13, h14, h15, hpet, if_true]
  · intro cname st ts text recipient content h1 h2 h3 h4 h5 h6 h7 h8 h9
      h10 h11 h12
    simp only [parse_chat_message, h1, h2, h3, h4, h5, h6, h7, h8, h9,
      h10, h11, h12]
  · intro cname st ts text sender recipient content h1 h2 h3 h4 h5 h6 h7
      h8 h9 h10 h11 h12 h13 heq
    simp only [parse_chat_message, h1, h2, h3, h4, h5, h6, h7, h8, h9,
      h10, h11, h12, h13, decide_eq_true heq, Bool.not_true,
      Bool.false_and, if_true, if_false]
    rfl
  · intro cname st ts text content h1 h2 h3 h4 h5 h6 h7 h8 h9 h10 h11
      h12 h13 h14
    simp only [parse_chat_message, h1, h2, h3, h4, h5, h6, h7, h8, h9,
      h10, h11, h12, h13, h14]

/-- Concrete pet-spam lines for the C10 witness. -/
def petTellLine : Str :=
  "Pet tells you, ".toList ++ [quoteChar] ++
    "Following you, Master.".toList ++ [quoteChar]

def petTellOutLine : Str :=
  "You told Bob, ".toList ++ [quoteChar] ++
    "following you, master.".toList ++ [quoteChar]

def petArrowLine : Str := "Pet -> Me: Following you, Master.".toList

/-- C10 witness at concrete lines: an incoming pet tell and an incoming
pet arrow-tell are dropped; the same content told outward produces a
normal message. -/
theorem pet_spam_suppression_witness :
    parse_chat_message "Me".toList {} ⟨0, petTellLine⟩ = ({}, none) ∧
    parse_chat_message "Me".toList {} ⟨0, petArrowLine⟩ = ({}, none) ∧
    parse_chat_message "Me".toList {} ⟨0, petTellOutLine⟩ =
      ({}, some { timestamp := 0, channel := .tell, sender := youStr,
                  content := "following you, master.".toList,
                  is_outgoing := true,
                  tell_target := some "Bob".toList }) := by
  refine ⟨?_, ?_, ?_⟩
  · exact pet_spam_suppression.1 "Me".toList {} 0 petTellLine
      "Pet".toList "Following you, Master.".toList rfl rfl rfl rfl rfl
      rfl rfl rfl rfl rfl rfl (by decide)
  · exact pet_spam_suppression.2.1 "Me".toList {} 0 petArrowLine
      "Pet".toList "Me".toList "Following you, Master.".toList rfl rfl
      rfl rfl rfl rfl rfl rfl rfl rfl rfl rfl rfl (by decide) (by decide)
  · exact pet_spam_suppression.2.2.2.1 "Me".toList {} 0 petTellOutLine
      "Bob".toList "following you, master.".toList rfl rfl rfl rfl rfl
      rfl rfl rfl rfl rfl rfl rfl

/-! ## Shape lemmas for the cast-on-you branch -/

theorem castOnYouStep_hit (cfg : TimersConfig) (level : Nat) (now : Int)
    (st : PanelState) (entry_ts : Int) (spells : List SpellInfo)
    (pc : PendingCast) (s : SpellInfo)
    (hpc : st.pending_cast = some pc)
    (hw : entry_ts - pc.log_timestamp < cfg.cast_window_seconds)
    (hs : (spells.find? fun x => decide (x.name = pc.spell_name)) =
      some s) :
    (castOnYouStep cfg level now st entry_ts spells).pending_cast =
      none := by
  unfold castOnYouStep
  simp only [hpc, if_pos hw, hs]
  cases hin : pc.item_name <;>
    cases hbm : best_match spells (some s.name) <;>
      simp [hbm] <;> split <;> simp

theorem castOnYouStep_miss (cfg : TimersConfig) (level : Nat) (now : Int)
    (st : PanelState) (entry_ts : Int) (spells : List SpellInfo)
    (pc : PendingCast)
    (hpc : st.pending_cast = some pc)
    (hmiss : ¬ entry_ts - pc.log_timestamp < cfg.cast_window_seconds ∨
      (spells.find? fun x => decide (x.name = pc.spell_name)) = none) :
    (castOnYouStep cfg level now st entry_ts spells).pending_cast =
      some pc ∧
    (castOnYouStep cfg level now st entry_ts spells).item_cast_times =
      st.item_cast_times ∧
    ((castOnYouStep cfg level now st entry_ts spells).timer_mgr =
        st.timer_mgr ∨
      ∃ s : SpellInfo, best_match spells none = some s ∧
        0 < s.get_duration_seconds level ∧
        (castOnYouStep cfg level now st entry_ts spells).timer_mgr =
          st.timer_mgr.add ⟨s.name, youStr,
            now + (s.get_duration_seconds level : Int),
            s.get_duration_seconds level, TimerCategory.received_buff,
            some s⟩) := by
  have hr : (match st.pending_cast with
      | some pc =>
        if entry_ts - pc.log_timestamp < cfg.cast_window_seconds then
          match spells.find? fun s => decide (s.name = pc.spell_name) with
          | some s => ((true : Bool), some s.name, pc.item_name,
                       some pc.cast_time, (none : Option PendingCast))
          | none => ((false : Bool), none, none, none, st.pending_cast)
        else ((false : Bool), none, none, none, st.pending_cast)
      | none => ((false : Bool), none, none, none,
                 (none : Option PendingCast))) =
      ((false : Bool), (none : Option Str), (none : Option Str),
       (none : Option Int), st.pending_cast) := by
    rcases hmiss with hm | hm
    · simp [hpc, if_neg hm]
    · simp [hpc, hm]
  unfold castOnYouStep
  rw [hr]
  cases hbm : best_match spells none with
  | none => refine ⟨?_, ?_, Or.inl ?_⟩ <;> simp [hbm, hpc]
  | some spell =>
    by_cases hd : 0 < spell.get_duration_seconds level
    · refine ⟨?_, ?_, Or.inr ⟨spell, rfl, hd, ?_⟩⟩ <;>
        simp [hbm, hpc, hd]
    · refine ⟨?_, ?_, Or.inl ?_⟩ <;> simp [hbm, hpc, hd]

/-- C3: in the cast-on-you branch, the event correlates as a self-cast
(clearing the pending cast) exactly when the elapsed log time is
strictly below the configured window and some candidate bears the
pending spell name; at exactly the window boundary it does not
correlate, one unit before it does; on a failed correlation the pending
cast is left untouched and any timer created is a received-from-other
buff. -/
theorem correlation_window_boundary (cfg : TimersConfig) (level : Nat)
    (now : Int) (st : PanelState) (entry_ts : Int)
    (spells : List SpellInfo) (pc : PendingCast)
    (hpc : st.pending_cast = some pc) :
    ((entry_ts - pc.log_timestamp < cfg.cast_window_seconds ∧
        ∃ s, (spells.find? fun x => decide (x.name = pc.spell_name)) =
          some s) →
      (castOnYouStep cfg level now st entry_ts spells).pending_cast =
        none) ∧
    ((¬ entry_ts - pc.log_timestamp < cfg.cast_window_seconds ∨
        (spells.find? fun x => decide (x.name = pc.spell_name)) = none) →
      (castOnYouStep cfg level now st entry_ts spells).pending_cast =
        some pc ∧
      ((castOnYouStep cfg level now st entry_ts spells).timer_mgr =
          st.timer_mgr ∨
        ∃ s : SpellInfo, best_match spells none = some s ∧
          0 < s.get_duration_seconds level ∧
          (castOnYouStep cfg level now st entry_ts spells).timer_mgr =
            st.timer_mgr.add ⟨s.name, youStr,
              now + (s.get_duration_seconds level : Int),
              s.get_duration_seconds level,
              TimerCategory.received_buff, some s⟩)) ∧
    (entry_ts - pc.log_timestamp = cfg.cast_window_seconds →
      (castOnYouStep cfg level now st entry_ts spells).pending_cast =
        some pc) ∧
    (entry_ts - pc.log_timestamp = cfg.cast_window_seconds - 1 →
      (∃ s, (spells.find? fun x => decide (x.name = pc.spell_name)) =
        some s) →
      (castOnYouStep cfg level now st entry_ts spells).pending_cast =
        none) := by
  refine ⟨?_, ?_, ?_, ?_⟩
  · rintro ⟨hw, s, hs⟩
    exact castOnYouStep_hit cfg level now st entry_ts spells pc s hpc hw
      hs
  · intro hmiss
    obtain ⟨h1, _, h3⟩ :=
      castOnYouStep_miss cfg level now st entry_ts spells pc hpc hmiss
    exact ⟨h1, h3⟩
  · intro hb
    exact (castOnYouStep_miss cfg level now st entry_ts spells pc hpc
      (Or.inl (by omega))).1
  · rintro hb ⟨s, hs⟩
    exact castOnYouStep_hit cfg level now st entry_ts spells pc s hpc
      (by omega) hs

/-- Concrete panel data for the C3, C4 and C8 witnesses. -/
def cfgTen : TimersConfig := ⟨10, 60⟩

def spellSnare : SpellInfo :=
  { id := 3, name := "Snare".toList, cast_on_you := [],
    cast_on_other := [], spell_fades := [], duration_formula := 4,
    duration_base := 10, beneficial := false }

def pcSnare : PendingCast := ⟨"Snare".toList, 0, 0, none, false, none⟩

def stWithPending : PanelState := { pending_cast := some pcSnare }

/-- C3 witness: with a 10-second window, a landing 9 units after the
pending cast correlates (pending cleared); a landing exactly at the
boundary does not (pending untouched). -/
theorem correlation_window_boundary_witness :
    (castOnYouStep cfgTen 60 9 stWithPending 9 [spellSnare]).pending_cast
      = none ∧
    (castOnYouStep cfgTen 60 10 stWithPending 10
      [spellSnare]).pending_cast = some pcSnare := by
  constructor
  · exact (correlation_window_boundary cfgTen 60 9 stWithPending 9
      [spellSnare] pcSnare rfl).1 ⟨by decide, spellSnare, by decide⟩
  · exact (correlation_window_boundary cfgTen 60 10 stWithPending 10
      [spellSnare] pcSnare rfl).2.2.1 (by decide)

/-! ## Flag preservation lemmas (the adjacency flag is written only at
the top of `_process_log_entry` and in the casting branch) -/

theorem castOnYouStep_keeps_flag (cfg : TimersConfig) (level : Nat)
    (now : Int) (st : PanelState) (entry_ts : Int)
    (spells : List SpellInfo) :
    (castOnYouStep cfg level now st entry_ts spells).last_entry_was_cast
      = st.last_entry_was_cast := by
  unfold castOnYouStep
  cases hp : st.pending_cast <;>
    simp only [hp] <;> (repeat' split) <;> rfl

theorem castOnOtherGo_keeps_flag (cfg : TimersConfig) (level : Nat)
    (now : Int) (msg : Str) :
    ∀ (suffixes : List (Str × List SpellInfo)) (st st2 : PanelState),
      castOnOtherGo cfg level now msg suffixes st = some st2 →
      st2.last_entry_was_cast = st.last_entry_was_cast := by
  intro suffixes
  induction suffixes with
  | nil =>
    intro st st2 h
    rw [castOnOtherGo] at h
    cases h
    rfl
  | cons p rest ih =>
    intro st st2 h
    obtain ⟨sfx, spells⟩ := p
    rw [castOnOtherGo] at h
    try simp only [] at h
    repeat' split at h
    all_goals
      first
        | (cases h <;> rfl)
        | (have hh := ih _ _ h; exact hh)

theorem check_cast_on_other_keeps_flag (db : SpellDb)
    (cfg : TimersConfig) (level : Nat) (now : Int) (st : PanelState)
    (msg : Str) (st2 : PanelState)
    (h : check_cast_on_other db cfg level now st msg = some st2) :
    st2.last_entry_was_cast = st.last_entry_was_cast := by
  unfold check_cast_on_other at h
  cases hp : st.pending_cast with
  | none => rw [hp] at h; cases h; rfl
  | some pc =>
    rw [hp] at h
    exact castOnOtherGo_keeps_flag cfg level now msg db.by_cast_on_other
      st st2 h

/-- C4: item adjacency.  First part: an item-glow line attaches its item
to the pending cast exactly when the pending cast has no item yet and
the immediately preceding processed entry was the cast-begin line (the
one-shot flag); with no pending cast, a learned item-to-spell mapping
synthesizes a new pending cast with the item attached, and without one
nothing is created.  Second part: after processing any entry, the
adjacency flag is set exactly when that entry was a cast-begin line, so
an item-glow line following any other line type does not attach even if
a pending cast exists. -/
theorem item_adjacency_law :
    (∀ (db : SpellDb) (cfg : TimersConfig) (level : Nat) (now ts : Int)
        (st : PanelState) (msg item : Str),
      parse_item_glow msg = some item →
      is_blacklisted msg = false →
      is_death msg = false →
      is_cast_failure msg = false →
      parse_casting msg = none →
      ∃ st', process_log_entry db cfg level now st ⟨ts, msg⟩ = some st' ∧
        (∀ pc, st.pending_cast = some pc →
          st'.pending_cast =
            some (if pc.item_name = none ∧ st.last_entry_was_cast = true
                  then { pc with item_name := some item } else pc)) ∧
        (st.pending_cast = none →
          st'.pending_cast =
            (match get_item_spell_name st.learned_items item with
             | some sp =>
               some ⟨sp, now, ts, db.by_name sp, false, some item⟩
             | none => none))) ∧
    (∀ (db : SpellDb) (cfg : TimersConfig) (level : Nat) (now ts : Int)
        (st : PanelState) (msg : Str) (st' : PanelState),
      process_log_entry db cfg level now st ⟨ts, msg⟩ = some st' →
      (st'.last_entry_was_cast = true ↔
        (is_blacklisted msg = false ∧ is_death msg = false ∧
         is_cast_failure msg = false ∧
         (parse_casting msg).isSome = true))) := by
  constructor
  · intro db cfg level now ts st msg item hglow hbl hdeath hfail hcast
    unfold process_log_entry
    simp only [hbl, hdeath, hfail, hcast, hglow, Bool.false_eq_true,
      if_false]
    cases hp : st.pending_cast with
    | some pc =>
      by_cases hin : pc.item_name = none
      · by_cases hfl : st.last_entry_was_cast = true
        · refine ⟨_, rfl, ?_, ?_⟩
          · intro pc' hpc'
            cases hpc'
            simp [hin, hfl]
          · intro hnone
            cases hnone
        · have hflb : st.last_entry_was_cast = false := by
            cases hb : st.last_entry_was_cast
            · rfl
            · exact absurd hb hfl
          refine ⟨_, rfl, ?_, ?_⟩
          · intro pc' hpc'
            cases hpc'
            simp [hin, hflb]
          · intro hnone
            cases hnone
      · have hinb : pc.item_name.isNone = false := by
          cases hb : pc.item_name
          · exact absurd hb hin
          · rfl
        refine ⟨_, rfl, ?_, ?_⟩
        · intro pc' hpc'
          cases hpc'
          simp [hinb, hin]
        · intro hnone
          cases hnone
    | none =>
      cases hl : get_item_spell_name st.learned_items item with
      | some sp =>
        refine ⟨_, rfl, ?_, ?_⟩
        · intro pc' hpc'
          cases hpc'
        · intro _
          simp [hl]
      | none =>
        refine ⟨_, rfl, ?_, ?_⟩
        · intro pc' hpc'
          cases hpc'
        · intro _
          simp [hl]
  · intro db cfg level now ts st msg st' h
    unfold process_log_entry at h
    try simp only [] at h
    repeat' split at h
    all_goals try (cases h)
    all_goals
      try simp_all [castOnYouStep_keeps_flag,
        check_cast_on_other_keeps_flag]
    all_goals
      exact check_cast_on_other_keeps_flag _ _ _ _ _ _ _ (by assumption)

/-- Sample catalog and states for witnesses. -/
def sampleDb : SpellDb := ⟨fun _ => none, fun _ => [], fun _ => [], []⟩

def glowMsg : Str := "Your Pearl Ring begins to glow.".toList

def stAfterCast : PanelState :=
  { pending_cast := some pcSnare, last_entry_was_cast := true }

/-- C4 witness: an item-glow line processed immediately after the
cast-begin line attaches the item to the pending cast. -/
theorem item_adjacency_law_witness :
    ∃ st', process_log_entry sampleDb cfgTen 60 5 stAfterCast
        ⟨5, glowMsg⟩ = some st' ∧
      st'.pending_cast =
        some { pcSnare with item_name := some "Pearl Ring".toList } := by
  obtain ⟨st', h1, h2, _⟩ := item_adjacency_law.1 sampleDb cfgTen 60 5 5
    stAfterCast glowMsg "Pearl Ring".toList rfl rfl rfl rfl rfl
  refine ⟨st', h1, ?_⟩
  rw [h2 pcSnare rfl, if_pos ⟨rfl, rfl⟩]

/-! ## Cast-on-other (C8) -/

/-- Formula 0 yields zero ticks regardless of base, so this record's
computed duration is 0 at every level. -/
def spellSnareZero : SpellInfo :=
  { id := 4, name := "Snare".toList, cast_on_you := [],
    cast_on_other := " is ensnared.".toList, spell_fades := [],
    duration_formula := 0, duration_base := 0, beneficial := false }

def snareSuffix : Str := " is ensnared.".toList

def dbSnareZero : SpellDb :=
  ⟨fun _ => none, fun _ => [], fun _ => [], [(snareSuffix, [spellSnareZero])]⟩

def snareMsg : Str := "Orc".toList ++ snareSuffix

/-- C8 counterexample: the claim says the first suffix whose candidate
list contains the pending spell within the window clears the pending
cast and yields a landing-on-other timer.  With a matched spell whose
computed duration is 0 the code clears the pending cast but creates no
timer (and scans on): here the result state has no pending cast and an
empty registry. -/
theorem cast_on_other_zero_duration_counterexample :
    (check_cast_on_other dbSnareZero cfgTen 60 1 stWithPending
        snareMsg).map (fun s => (s.pending_cast, s.timer_mgr.timers)) =
      some (none, []) := by
  decide

/-- C8 as amended: a cast-on-other message is evaluated only while a
pending cast exists; a suffix is considered only when the message ends
with it and the target prefix is nonempty and does not start with
whitespace; a considered suffix with no candidate matching the pending
spell inside the window is skipped with the state unchanged; on the
first suffix with a candidate match, the pending cast is cleared, and
if the matched spell's computed duration is positive a landing-on-other
timer for that target is created and scanning stops, while with a zero
duration no timer is created and scanning continues over the remaining
suffixes with the pending cast already cleared. -/
theorem cast_on_other_first_match :
    (∀ (db : SpellDb) (cfg : TimersConfig) (level : Nat) (now : Int)
        (st : PanelState) (msg : Str),
      st.pending_cast = none →
      check_cast_on_other db cfg level now st msg = some st) ∧
    (∀ (cfg : TimersConfig) (level : Nat) (now : Int) (msg sfx : Str)
        (spells : List SpellInfo) (rest : List (Str × List SpellInfo))
        (st : PanelState) (pc : PendingCast),
      st.pending_cast = some pc →
      (sfx.isEmpty = true ∨ sfx.isSuffixOf msg = false ∨
        (msg.take (msg.length - sfx.length)).isEmpty = true ∨
        (msg.take (msg.length - sfx.length)).head? = some ' ' ∨
        ¬ now - pc.cast_time < cfg.cast_window_seconds ∨
        (spells.find? fun x => decide (x.name = pc.spell_name)) = none) →
      castOnOtherGo cfg level now msg ((sfx, spells) :: rest) st =
        castOnOtherGo cfg level now msg rest st) ∧
    (∀ (cfg : TimersConfig) (level : Nat) (now : Int) (msg sfx : Str)
        (spells : List SpellInfo) (rest : List (Str × List SpellInfo))
        (st : PanelState) (pc : PendingCast) (s spell : SpellInfo),
      st.pending_cast = some pc →
      sfx.isEmpty = false → sfx.isSuffixOf msg = true →
      (msg.take (msg.length - sfx.length)).isEmpty = false →
      ¬ (msg.take (msg.length - sfx.length)).head? = some ' ' →
      now - pc.cast_time < cfg.cast_window_seconds →
      (spells.find? fun x => decide (x.name = pc.spell_name)) = some s →
      best_match spells (some s.name) = some spell →
      0 < spell.get_duration_seconds level →
      ∃ st', castOnOtherGo cfg level now msg ((sfx, spells) :: rest) st =
          some st' ∧
        st'.pending_cast = none ∧
        st'.timer_mgr = st.timer_mgr.add
          ⟨spell.name, msg.take (msg.length - sfx.length),
           now + (spell.get_duration_seconds level : Int),
           spell.get_duration_seconds level,
           if spell.is_beneficial = true then TimerCategory.other_buff
           else TimerCategory.debuff, some spell⟩) ∧
    (∀ (cfg : TimersConfig) (level : Nat) (now : Int) (msg sfx : Str)
        (spells : List SpellInfo) (rest : List (Str × List SpellInfo))
        (st : PanelState) (pc : PendingCast) (s spell : SpellInfo),
      st.pending_cast = some pc →
      sfx.isEmpty = false → sfx.isSuffixOf msg = true →
      (msg.take (msg.length - sfx.length)).isEmpty = false →
      ¬ (msg.take (msg.length - sfx.length)).head? = some ' ' →
      now - pc.cast_time < cfg.cast_window_seconds →
      (spells.find? fun x => decide (x.name = pc.spell_name)) = some s →
      best_match spells (some s.name) = some spell →
      spell.get_duration_seconds level = 0 →
      ∃ stc, castOnOtherGo cfg level now msg ((sfx, spells) :: rest) st =
          castOnOtherGo cfg level now msg rest stc ∧
        stc.pending_cast = none ∧ stc.timer_mgr = st.timer_mgr) := by
  refine ⟨?_, ?_, ?_, ?_⟩
  · intro db cfg level now st msg h
    unfold check_cast_on_other
    rw [h]
  · intro cfg level now msg sfx spells rest st pc hpc hrej
    by_cases hg1 : (sfx.isEmpty || !(sfx.isSuffixOf msg)) = true
    · rw [castOnOtherGo, if_pos hg1]
    · by_cases hg2 : ((msg.take (msg.length - sfx.length)).isEmpty ||
          (msg.take (msg.length - sfx.length)).head? == some ' ') = true
      · rw [castOnOtherGo, if_neg hg1]
        simp only [hg2, if_true]
      · have hpref :
            (if now - pc.cast_time < cfg.cast_window_seconds then
              (spells.find? fun x =>
                decide (x.name = pc.spell_name)).map (fun x => x.name)
            else none) = none := by
          rcases hrej with h | h | h | h | h | h
          · simp [h] at hg1
          · simp [h] at hg1
          · simp [h] at hg2
          · simp [h] at hg2
          · rw [if_neg h]
          · split <;> simp [h]
        rw [Bool.not_eq_true] at hg2
        rw [castOnOtherGo, if_neg hg1]
        simp only [hg2, Bool.false_eq_true, if_false, hpc, hpref]
  · intro cfg level now msg sfx spells rest st pc s spell hpc he hsf hte
      hth hw hfind hbm hdur
    have hg2f : ((msg.take (msg.length - sfx.length)).isEmpty ||
        (msg.take (msg.length - sfx.length)).head? == some ' ') =
        false := by
      simp [hte, hth]
    have hdne : ¬ spell.get_duration_seconds level = 0 := by omega
    rw [castOnOtherGo, if_neg (by simp [he, hsf])]
    simp only [hg2f, Bool.false_eq_true, if_false, hpc, if_pos hw,
      hfind, Option.map_some', hbm, if_neg hdne]
    refine ⟨_, rfl, ?_, ?_⟩ <;> cases hin : pc.item_name <;> rfl
  · intro cfg level now msg sfx spells rest st pc s spell hpc he hsf hte
      hth hw hfind hbm hdur
    have hg2f : ((msg.take (msg.length - sfx.length)).isEmpty ||
        (msg.take (msg.length - sfx.length)).head? == some ' ') =
        false := by
      simp [hte, hth]
    rw [castOnOtherGo, if_neg (by simp [he, hsf])]
    simp only [hg2f, Bool.false_eq_true, if_false, hpc, if_pos hw,
      hfind, Option.map_some', hbm, if_pos hdur]
    refine ⟨_, rfl, ?_, ?_⟩ <;> cases hin : pc.item_name <;> rfl

/-- C8 witness: with a positive-duration match the first matching suffix
clears the pending cast and adds a debuff timer for the parsed target,
independent of the remaining suffixes. -/
theorem cast_on_other_first_match_witness :
    ∃ st', castOnOtherGo cfgTen 60 1 snareMsg
        [(snareSuffix, [spellSnare])] stWithPending = some st' ∧
      st'.pending_cast = none ∧
      st'.timer_mgr = stWithPending.timer_mgr.add
        ⟨spellSnare.name, "Orc".toList, 1 + (60 : Int), 60,
         TimerCategory.debuff, some spellSnare⟩ := by
  obtain ⟨st', h1, h2, h3⟩ := cast_on_other_first_match.2.2.1 cfgTen 60 1
    snareMsg snareSuffix [spellSnare] [] stWithPending pcSnare spellSnare
    spellSnare rfl (by decide) (by decide) (by decide) (by decide)
    (by decide) (by decide) (by decide) (by decide)
  exact ⟨st', h1, h2, h3⟩

/-! ## Combat aggregation scenario (C9) -/

/-- The combat state after `add_damage("You", 50, "Orc")` at `t1`
followed by `add_damage("You", 30, "Orc")` at `t2`, starting from no
active session. -/
def combatAfterTwoHits (t1 t2 : Int) : CombatState :=
  (add_damage t2 (add_damage t1 {} youStr 50 "Orc".toList).fst youStr 30
    "Orc".toList).fst

/-- The session state after the timeout check ends the session above. -/
def combatEnded (t1 : Int) : CombatState :=
  { combat_active := false, combat_targets := ["Orc".toList],
    combat_start := some t1, combat_damage := [(youStr, 80)],
    last_damage_time := none }

/-- C9: two damage events within the timeout window form one session
with total 80 for "You" and target set exactly {"Orc"}; a DPS query at
time `tq` reports 80 divided by the elapsed seconds since the session
start; a timeout check at exactly the timeout boundary does nothing
(strictly greater is required); a later check ends the session, emits
exactly one final snapshot with `ended = true`, and every further check
is a no-op. -/
theorem combat_session_scenario (t1 t2 tq tb te timeout : Int)
    (h12 : t1 ≤ t2) (hwin : t2 - t1 ≤ timeout) (hq : t1 < tq)
    (hb : tb - t2 = timeout) (hte : te - t2 > timeout) :
    (combatAfterTwoHits t1 t2).combat_active = true ∧
    lookupDamage (combatAfterTwoHits t1 t2).combat_damage youStr = 80 ∧
    (combatAfterTwoHits t1 t2).combat_targets = ["Orc".toList] ∧
    emit_dps tq (combatAfterTwoHits t1 t2) false =
      some { active := true, ended := false, target := "Orc".toList,
             num_targets := 1, duration := ((tq - t1 : Int) : ℚ),
             players := [⟨youStr, 80,
               (80 : ℚ) / ((tq - t1 : Int) : ℚ)⟩] } ∧
    check_combat_timeout tb timeout (combatAfterTwoHits t1 t2) =
      (combatAfterTwoHits t1 t2, none) ∧
    (∃ c3 snap,
      check_combat_timeout te timeout (combatAfterTwoHits t1 t2) =
        (c3, some snap) ∧
      snap.ended = true ∧ snap.active = false ∧
      c3.combat_active = false ∧
      (∀ t : Int, check_combat_timeout t timeout c3 = (c3, none))) := by
  have hc2 : combatAfterTwoHits t1 t2 =
      { combat_active := true, combat_targets := ["Orc".toList],
        combat_start := some t1, combat_damage := [(youStr, 80)],
        last_damage_time := some t2 } := rfl
  refine ⟨rfl, rfl, rfl, ?_, ?_, ?_⟩
  · rw [hc2]
    unfold emit_dps
    have hpos : (0 : ℚ) < ((tq - t1 : Int) : ℚ) := by
      exact_mod_cast (by omega : (0 : Int) < tq - t1)
    simp only [if_neg (not_le.mpr hpos)]
    norm_num [List.mergeSort]
  · rw [hc2]
    unfold check_combat_timeout
    simp only [hb]
    simp
  · rw [hc2]
    have hemit : ∃ snap, emit_dps te
        ({ combat_active := true, combat_targets := ["Orc".toList],
           combat_start := some t1, combat_damage := [(youStr, 80)],
           last_damage_time := some t2 } : CombatState) true =
          some snap ∧ snap.ended = true ∧ snap.active = false :=
      ⟨_, rfl, rfl, rfl⟩
    obtain ⟨snap, hsnap, hend, hact⟩ := hemit
    refine ⟨combatEnded t1, snap, ?_, hend, hact, rfl, fun t => rfl⟩
    unfold check_combat_timeout end_combat
    simp only [if_pos hte]
    rw [hsnap]
    simp [combatEnded]

/-- C9 witness at concrete times (start 0, second hit 5, query 10,
boundary check 65, ending check 70, timeout 60). -/
theorem combat_session_scenario_witness :
    lookupDamage (combatAfterTwoHits 0 5).combat_damage youStr = 80 ∧
    emit_dps 10 (combatAfterTwoHits 0 5) false =
      some { active := true, ended := false, target := "Orc".toList,
             num_targets := 1, duration := ((10 - 0 : Int) : ℚ),
             players := [⟨youStr, 80,
               (80 : ℚ) / ((10 - 0 : Int) : ℚ)⟩] } ∧
    check_combat_timeout 65 60 (combatAfterTwoHits 0 5) =
      (combatAfterTwoHits 0 5, none) ∧
    (∃ c3 snap, check_combat_timeout 70 60 (combatAfterTwoHits 0 5) =
        (c3, some snap) ∧ snap.ended = true) := by
  obtain ⟨h1, h2, h3, h4, h5, h6⟩ :=
    combat_session_scenario 0 5 10 65 70 60 (by decide) (by decide)
      (by decide) (by decide) (by decide)
  obtain ⟨c3, snap, he, hend, hact, hc3, hall⟩ := h6
  exact ⟨h2, h4, h5, c3, snap, he, hend⟩

/-! ## Backward scan equivalence (C6) -/

theorem fileSize_append (pre post : List ScanLine) :
    fileSize (pre ++ post) = fileSize pre + fileSize post := by
  simp [fileSize]

theorem fileSize_cons (x : ScanLine) (xs : List ScanLine) :
    fileSize (x :: xs) = x.len + fileSize xs := by
  simp [fileSize]

theorem firstLineAt_eq_some {file : List ScanLine} {r : Nat}
    {l : ScanLine} (h : firstLineAt file r = some l) :
    ∃ pre post, file = pre ++ l :: post ∧ fileSize pre = r := by
  induction file generalizing r with
  | nil => cases h
  | cons x xs ih =>
    rw [firstLineAt] at h
    split at h
    · rename_i hr
      cases h
      exact ⟨[], xs, rfl, by simp [fileSize, hr]⟩
    · split at h
      · cases h
      · rename_i hr hlt
        obtain ⟨pre, post, heq, hsize⟩ := ih h
        refine ⟨x :: pre, post, by rw [List.cons_append, heq], ?_⟩
        rw [fileSize_cons, hsize]
        omega

theorem skipLen_at_boundary (pre : List ScanLine) (l : ScanLine)
    (post : List ScanLine) (hlen : 0 < l.len) :
    skipLen (pre ++ l :: post) (fileSize pre) = fileSize pre + l.len := by
  induction pre with
  | nil => simp [skipLen, fileSize, hlen]
  | cons x xs ih =>
    rw [List.cons_append, skipLen, fileSize_cons]
    have h1 : ¬ (x.len + fileSize xs < x.len) := by omega
    rw [if_neg h1]
    have h2 : x.len + fileSize xs - x.len = fileSize xs := by omega
    rw [h2, ih]
    omega

theorem entriesFrom_append (pre rest : List ScanLine) (k : Nat) :
    entriesFrom (pre ++ rest) (fileSize pre + k) = entriesFrom rest k := by
  induction pre with
  | nil => simp [fileSize]
  | cons x xs ih =>
    rw [List.cons_append, entriesFrom, fileSize_cons]
    have h1 : ¬ (x.len + fileSize xs + k < x.len) := by omega
    rw [if_neg h1]
    have h2 : x.len + fileSize xs + k - x.len = fileSize xs + k := by
      omega
    rw [h2, ih]

theorem entriesFrom_zero (file : List ScanLine)
    (hlen : ∀ l ∈ file, 0 < l.len) :
    entriesFrom file 0 = file.filterMap (fun l => l.entry) := by
  induction file with
  | nil => rfl
  | cons x xs ih =>
    rw [entriesFrom, if_pos (hlen x (by simp)), if_pos rfl]
    rw [ih (fun l2 h2 => hlen l2 (by simp [h2]))]
    cases hx : x.entry <;> simp [List.filterMap_cons, hx, Option.toList]

theorem backScanGo_invariant (file : List ScanLine) (chunk : Nat)
    (cutoff : Int) :
    ∀ fuel endPos,
      backScanGo file chunk cutoff fuel endPos = 0 ∨
      ∃ l e,
        firstLineAt file (backScanGo file chunk cutoff fuel endPos) =
          some l ∧
        l.entry = some e ∧ e.timestamp < cutoff := by
  intro fuel
  induction fuel with
  | zero => intro endPos; left; rfl
  | succ n ih =>
    intro endPos
    rw [backScanGo]
    split
    · left; rfl
    · simp only []
      set cs : Nat :=
        if endPos - chunk = 0 then 0 else skipLen file (endPos - chunk)
        with hcs
      split
      · rename_i hbrk
        right
        cases hfl : firstLineAt file cs with
        | none => rw [hfl] at hbrk; cases hbrk
        | some l =>
          rw [hfl] at hbrk
          simp only [] at hbrk
          cases he : l.entry with
          | none => rw [he] at hbrk; cases hbrk
          | some e =>
            rw [he] at hbrk
            simp only [] at hbrk
            exact ⟨l, e, rfl, he, of_decide_eq_true hbrk⟩
      · split
        · exact ih cs
        · left; rfl

/-- C6: for a file whose parsed entries appear in non-decreasing
timestamp order (and whose physical lines are nonempty and shorter than
the chunk size, the domain on which the backward loop terminates), the
reverse-chunk scan of `load_raw_history` returns exactly the entries,
in the same oldest-first order, that a naive single forward pass over
the whole file keeps with the same `timestamp >= cutoff` filter. -/
theorem backward_scan_equivalence (file : List ScanLine) (chunk : Nat)
    (cutoff : Int)
    (hchunk : ∀ l ∈ file, l.len < chunk)
    (hlen : ∀ l ∈ file, 0 < l.len)
    (hsorted : (file.filterMap fun l => l.entry).Pairwise
      (fun a b => a.timestamp ≤ b.timestamp)) :
    load_raw_history file chunk cutoff = naive_history file cutoff := by
  unfold load_raw_history naive_history
  simp only []
  rcases backScanGo_invariant file chunk cutoff (fileSize file + 1)
    (fileSize file) with h0 | ⟨l, e, hfl, he, hlt⟩
  · rw [h0]
    simp [entriesFrom_zero file hlen]
  · by_cases hz :
      backScanGo file chunk cutoff (fileSize file + 1) (fileSize file)
        = 0
    · rw [hz]
      simp [entriesFrom_zero file hlen]
    · rw [if_neg hz]
      obtain ⟨pre, post, heqf, hsize⟩ := firstLineAt_eq_some hfl
      have hmem : l ∈ file := by rw [heqf]; simp
      have hskip :
          skipLen file
            (backScanGo file chunk cutoff (fileSize file + 1)
              (fileSize file)) =
          backScanGo file chunk cutoff (fileSize file + 1)
            (fileSize file) + l.len := by
        rw [← hsize, heqf]
        exact skipLen_at_boundary pre l post (hlen l hmem)
      rw [hskip]
      have hentries :
          entriesFrom file
            (backScanGo file chunk cutoff (fileSize file + 1)
              (fileSize file) + l.len) =
          post.filterMap (fun l2 => l2.entry) := by
        have hsplit : file = (pre ++ [l]) ++ post := by
          rw [heqf]; simp
        have hfs : fileSize (pre ++ [l]) =
            backScanGo file chunk cutoff (fileSize file + 1)
              (fileSize file) + l.len := by
          rw [fileSize_append, hsize]
          simp [fileSize]
        rw [← hfs, hsplit]
        have := entriesFrom_append (pre ++ [l]) post 0
        rw [Nat.add_zero] at this
        rw [this]
        exact entriesFrom_zero post
          (fun l2 h2 => hlen l2 (by rw [heqf]; simp [h2]))
      rw [hentries]
      have hsorted2 :
          ((pre.filterMap fun l2 => l2.entry) ++
            e :: (post.filterMap fun l2 => l2.entry)).Pairwise
            (fun a b => a.timestamp ≤ b.timestamp) := by
        have : file.filterMap (fun l2 => l2.entry) =
            (pre.filterMap fun l2 => l2.entry) ++
              e :: (post.filterMap fun l2 => l2.entry) := by
          rw [heqf, List.filterMap_append, List.filterMap_cons, he]
        rwa [this] at hsorted
      have hpre : ∀ a ∈ pre.filterMap fun l2 => l2.entry,
          a.timestamp ≤ e.timestamp := by
        intro a ha
        exact (List.pairwise_append.mp hsorted2).2.2 a ha e (by simp)
      have hfmfile : file.filterMap (fun l2 => l2.entry) =
          (pre.filterMap fun l2 => l2.entry) ++
            e :: (post.filterMap fun l2 => l2.entry) := by
        rw [heqf, List.filterMap_append, List.filterMap_cons, he]
      rw [hfmfile, List.filter_append]
      have hprefilter :
          ((pre.filterMap fun l2 => l2.entry).filter fun a =>
            decide (cutoff ≤ a.timestamp)) = [] := by
        rw [List.filter_eq_nil_iff]
        intro a ha
        have := hpre a ha
        simp only [decide_eq_true_eq]
        omega
      rw [hprefilter, List.nil_append, List.filter_cons]
      have hefilter : (decide (cutoff ≤ e.timestamp)) = false := by
        simp only [decide_eq_false_iff_not]
        omega
      rw [hefilter]
      simp

/-- A small concrete log file: a parsed line at timestamp 1, a malformed
line, and a parsed line at timestamp 3, with a chunk size larger than
every line. -/
def sampleFile : List ScanLine :=
  [ ⟨some ⟨1, "a".toList⟩, 5⟩, ⟨none, 3⟩, ⟨some ⟨3, "b".toList⟩, 6⟩ ]

/-- C6 witness: on the sample file with cutoff 2, the reverse-chunk scan
and the naive forward pass agree, and both return exactly the entry at
timestamp 3. -/
theorem backward_scan_equivalence_witness :
    load_raw_history sampleFile 8 2 = naive_history sampleFile 2 ∧
    naive_history sampleFile 2 = [⟨3, "b".toList⟩] := by
  constructor
  · exact backward_scan_equivalence sampleFile 8 2 (by decide)
      (by decide) (by decide)
  · decide

end EQOverlay
